import Mathlib

/-!
Verification of the podman FreeBSD control-plane core against its
natural-language specification.  Each Go function that a claim depends on is
shallowly embedded as an executable Lean definition; external effects
(storage drivers, the network backend, the checkpoint engine, the OCI
runtime, the filesystem) are supplied as explicit environment records whose
fields hold the outcome each external call would produce in a given run.
-/

namespace Podman

/-! ## Go string helpers -/

/-- Go `strings.Split(s, string(sep))` for a one-character separator,
on character lists.  `strings.Split("", sep)` is `[""]`, hence the
base case `[[]]`. -/
def splitCh (sep : Char) : List Char → List (List Char)
  | [] => [[]]
  | c :: cs =>
    match splitCh sep cs with
    | [] => [[c]]
    | fld :: flds => if c = sep then [] :: fld :: flds else (c :: fld) :: flds

/-- Go `strings.Split` at the `String` level. -/
def goSplit (s : String) (sep : Char) : List String :=
  (splitCh sep s.toList).map String.mk

theorem splitCh_ne_nil (sep : Char) (l : List Char) : splitCh sep l ≠ [] := by
  cases l with
  | nil => simp [splitCh]
  | cons c cs =>
    simp only [splitCh]
    cases h : splitCh sep cs with
    | nil => simp
    | cons fld flds =>
      by_cases hc : c = sep <;> simp [hc]

theorem splitCh_no_sep {sep : Char} : ∀ {l : List Char}, sep ∉ l → splitCh sep l = [l] := by
  intro l
  induction l with
  | nil => intro _; rfl
  | cons c cs ih =>
    intro h
    have hc : c ≠ sep := fun he => h (he ▸ List.mem_cons_self c cs)
    have hcs : sep ∉ cs := fun hm => h (List.mem_cons_of_mem c hm)
    simp only [splitCh, ih hcs]
    simp [hc]

theorem splitCh_append {sep : Char} :
    ∀ {a : List Char} (b : List Char), sep ∉ a →
      splitCh sep (a ++ sep :: b) = a :: splitCh sep b := by
  intro a
  induction a with
  | nil =>
    intro b _
    simp only [List.nil_append, splitCh]
    cases h : splitCh sep b with
    | nil => exact absurd h (splitCh_ne_nil sep b)
    | cons fld flds => simp
  | cons c cs ih =>
    intro b h
    have hc : c ≠ sep := fun he => h (he ▸ List.mem_cons_self c cs)
    have hcs : sep ∉ cs := fun hm => h (List.mem_cons_of_mem c hm)
    rw [List.cons_append]
    simp only [splitCh]
    rw [ih b hcs]
    simp [hc]

theorem string_toList_append (s t : String) : (s ++ t).toList = s.toList ++ t.toList := by
  cases s; cases t; rfl

theorem string_mk_toList (s : String) : String.mk s.toList = s := by
  cases s; rfl

/-! ## `ParseDevice` and `IsValidDeviceMode`
(pkg/specgen/generate, FreeBSD device file) -/

/-- The letters still legal, mirroring the `legalDeviceMode` map in
`IsValidDeviceMode`: a letter is set to `false` (here: erased) once seen,
so repeated letters are rejected. -/
def validModeChars : List Char → List Char → Bool
  | _, [] => true
  | legal, c :: cs =>
    if c ∈ legal then validModeChars (legal.erase c) cs else false

/-- `IsValidDeviceMode`: valid iff non-empty and composed of distinct letters
drawn from `r`, `w`, `m`. -/
def IsValidDeviceMode (mode : String) : Bool :=
  if mode = "" then false else validModeChars ['r', 'w', 'm'] mode.toList

/-- Result of `ParseDevice`.  Go's `arr[1][0]` on an empty field is an
unguarded partial indexing operation; a total embedding must give that
outcome its own constructor (`outOfRange`, a runtime panic), distinct from
the error returns. -/
inductive DeviceParseResult where
  | ok (src dst perm : String)
  | err (msg : String)
  | outOfRange
  deriving DecidableEq

/-- The `case 2` body of `ParseDevice` plus the shared tail (`case 1` and the
`dst == ""` defaulting): `arr[1]` is a permission string if valid, else a
destination that must start with `/`; `arr[1][0]` on an empty `arr[1]` is an
index-out-of-range panic. -/
def parseDeviceFrom2 (a0 a1 perm : String) : DeviceParseResult :=
  if IsValidDeviceMode a1 then
    .ok a0 a0 a1
  else
    match a1.toList with
    | [] => .outOfRange
    | c :: _ =>
      if c ≠ '/' then .err ("invalid device mode: " ++ a1)
      else .ok a0 a1 perm

/-- The switch of `ParseDevice` over the split fields. -/
def parseDeviceArr (device : String) : List String → DeviceParseResult
  | [a0] => .ok a0 a0 "rwm"
  | [a0, a1] => parseDeviceFrom2 a0 a1 "rwm"
  | [a0, a1, a2] =>
    if IsValidDeviceMode a2 then parseDeviceFrom2 a0 a1 a2
    else .err ("invalid device mode: " ++ a2)
  | _ => .err ("invalid device specification: " ++ device)

/-- `ParseDevice` parses a device mapping string to src, dst and permissions. -/
def ParseDevice (device : String) : DeviceParseResult :=
  parseDeviceArr device (goSplit device ':')

theorem validModeChars_mem :
    ∀ {cs legal : List Char}, validModeChars legal cs = true → ∀ c ∈ cs, c ∈ legal := by
  intro cs
  induction cs with
  | nil => intro legal _ c hc; cases hc
  | cons c0 cs ih =>
    intro legal h c hc
    simp only [validModeChars] at h
    by_cases hmem : c0 ∈ legal
    · rw [if_pos hmem] at h
      rcases List.mem_cons.mp hc with hceq | hctail
      · exact hceq ▸ hmem
      · exact List.mem_of_mem_erase (ih h c hctail)
    · rw [if_neg hmem] at h
      exact absurd h (by simp)

theorem valid_mode_no_colon {p : String} (h : IsValidDeviceMode p = true) :
    ':' ∉ p.toList := by
  intro hmem
  unfold IsValidDeviceMode at h
  by_cases hp : p = ""
  · rw [if_pos hp] at h; exact absurd h (by simp)
  · rw [if_neg hp] at h
    have := validModeChars_mem h ':' hmem
    simp at this

theorem head_slash_not_valid_mode {d : String} (h : d.toList.head? = some '/') :
    IsValidDeviceMode d = false := by
  unfold IsValidDeviceMode
  by_cases hd : d = ""
  · rw [if_pos hd]
  · rw [if_neg hd]
    cases hl : d.toList with
    | nil => rw [hl] at h; simp at h
    | cons c cs =>
      rw [hl] at h
      simp only [List.head?] at h
      have hc : c = '/' := by injection h
      subst hc
      simp [validModeChars]

theorem toList_ne_nil_of_head {d : String} (h : d.toList.head? = some '/') : d ≠ "" := by
  intro he
  subst he
  simp at h

/-- Splitting the concatenation `a ++ ":" ++ b` recovers the fields of `a`
followed by the fields of `b`, when `a` itself has no colon. -/
theorem goSplit_append_colon {a b : String} (ha : ':' ∉ a.toList) :
    goSplit (a ++ ":" ++ b) ':' = a :: goSplit b ':' := by
  unfold goSplit
  have h1 : (a ++ ":" ++ b).toList = a.toList ++ ':' :: b.toList := by
    rw [string_toList_append, string_toList_append]
    simp [show (":" : String).toList = [':'] from rfl]
  rw [h1, splitCh_append _ ha]
  simp [string_mk_toList]

theorem goSplit_no_colon {a : String} (ha : ':' ∉ a.toList) :
    goSplit a ':' = [a] := by
  unfold goSplit
  rw [splitCh_no_sep ha]
  simp [string_mk_toList]

/-- C4: the four device-string forms parse with the documented defaults,
invalid permission letters and too many fields are errors, and in the
2-field form the second field is a permission string when valid, else a
destination path that must begin with `/`. -/
theorem parse_device_forms (src dst perm bad : String)
    (hsrc : ':' ∉ src.toList)
    (hdst : dst.toList.head? = some '/')
    (hdstc : ':' ∉ dst.toList)
    (hperm : IsValidDeviceMode perm = true)
    (hbad : IsValidDeviceMode bad = false)
    (hbadc : ':' ∉ bad.toList)
    (hbadhead : ∀ c, bad.toList.head? = some c → c ≠ '/') :
    ParseDevice src = .ok src src "rwm"
    ∧ ParseDevice (src ++ ":" ++ dst) = .ok src dst "rwm"
    ∧ ParseDevice (src ++ ":" ++ perm) = .ok src src perm
    ∧ ParseDevice (src ++ ":" ++ dst ++ ":" ++ perm) = .ok src dst perm
    ∧ ParseDevice (src ++ ":" ++ dst ++ ":" ++ bad) = .err ("invalid device mode: " ++ bad)
    ∧ (bad ≠ "" →
        ParseDevice (src ++ ":" ++ bad) = .err ("invalid device mode: " ++ bad))
    ∧ ParseDevice (src ++ ":" ++ dst ++ ":" ++ perm ++ ":" ++ perm)
        = .err ("invalid device specification: "
            ++ (src ++ ":" ++ dst ++ ":" ++ perm ++ ":" ++ perm)) := by
  have hvd : IsValidDeviceMode dst = false := head_slash_not_valid_mode hdst
  have hdl : ∃ cs, dst.toList = '/' :: cs := by
    cases hl : dst.toList with
    | nil => rw [hl] at hdst; simp at hdst
    | cons c cs =>
      rw [hl] at hdst
      simp only [List.head?] at hdst
      exact ⟨cs, by rw [show c = '/' by injection hdst]⟩
  have hpermc : ':' ∉ perm.toList := valid_mode_no_colon hperm
  refine ⟨?_, ?_, ?_, ?_, ?_, ?_, ?_⟩
  · unfold ParseDevice
    rw [goSplit_no_colon hsrc]
    rfl
  · unfold ParseDevice
    rw [goSplit_append_colon hsrc, goSplit_no_colon hdstc]
    obtain ⟨cs, hcs⟩ := hdl
    have hcsd : dst.data = '/' :: cs := hcs
    simp [parseDeviceArr, parseDeviceFrom2, hvd, hcsd]
  · unfold ParseDevice
    rw [goSplit_append_colon hsrc, goSplit_no_colon hpermc]
    simp [parseDeviceArr, parseDeviceFrom2, hperm]
  · unfold ParseDevice
    rw [show src ++ ":" ++ dst ++ ":" ++ perm = src ++ ":" ++ (dst ++ ":" ++ perm) by
      simp [String.append_assoc]]
    rw [goSplit_append_colon hsrc, goSplit_append_colon hdstc, goSplit_no_colon hpermc]
    obtain ⟨cs, hcs⟩ := hdl
    have hcsd : dst.data = '/' :: cs := hcs
    simp [parseDeviceArr, parseDeviceFrom2, hperm, hvd, hcsd]
  · unfold ParseDevice
    rw [show src ++ ":" ++ dst ++ ":" ++ bad = src ++ ":" ++ (dst ++ ":" ++ bad) by
      simp [String.append_assoc]]
    rw [goSplit_append_colon hsrc, goSplit_append_colon hdstc, goSplit_no_colon hbadc]
    simp [parseDeviceArr, hbad]
  · intro hbne
    unfold ParseDevice
    rw [goSplit_append_colon hsrc, goSplit_no_colon hbadc]
    cases hl : bad.toList with
    | nil =>
      exact absurd (by cases bad; simpa using congrArg String.mk hl) hbne
    | cons c cs =>
      have hcne : c ≠ '/' := hbadhead c (by rw [hl]; rfl)
      have hld : bad.data = c :: cs := hl
      simp [parseDeviceArr, parseDeviceFrom2, hbad, hld, hcne]
  · unfold ParseDevice
    rw [show src ++ ":" ++ dst ++ ":" ++ perm ++ ":" ++ perm
        = src ++ ":" ++ (dst ++ ":" ++ (perm ++ ":" ++ perm)) by
      simp [String.append_assoc]]
    rw [goSplit_append_colon hsrc, goSplit_append_colon hdstc,
      goSplit_append_colon hpermc, goSplit_no_colon hpermc]
    simp [parseDeviceArr, String.append_assoc]

theorem parse_device_forms_witness :
    ParseDevice "/dev/foo" = .ok "/dev/foo" "/dev/foo" "rwm"
    ∧ ParseDevice ("/dev/foo" ++ ":" ++ "/dev/bar") = .ok "/dev/foo" "/dev/bar" "rwm"
    ∧ ParseDevice ("/dev/foo" ++ ":" ++ "rw") = .ok "/dev/foo" "/dev/foo" "rw"
    ∧ ParseDevice ("/dev/foo" ++ ":" ++ "/dev/bar" ++ ":" ++ "rw")
        = .ok "/dev/foo" "/dev/bar" "rw"
    ∧ ParseDevice ("/dev/foo" ++ ":" ++ "bad") = .err ("invalid device mode: " ++ "bad") := by
  have h := parse_device_forms "/dev/foo" "/dev/bar" "rw" "bad"
    (by decide) (by decide) (by decide) (by decide) (by decide) (by decide)
    (by intro c hc; simp at hc; subst hc; decide)
  exact ⟨h.1, h.2.1, h.2.2.1, h.2.2.2.1, h.2.2.2.2.2.1 (by decide)⟩

/-- C10: a device string whose second colon-separated field is empty reaches
`arr[1][0]` — an unguarded index on an empty string — whenever that field
fails the permission-validity check and is actually examined (2 fields, or
3 fields with a valid third field); the embedding records this as the
out-of-range outcome, not as an error return. -/
theorem parse_device_empty_second_field (device f0 : String) (rest : List String)
    (h : goSplit device ':' = f0 :: "" :: rest)
    (hrest : rest = [] ∨ ∃ p, rest = [p] ∧ IsValidDeviceMode p = true) :
    ParseDevice device = .outOfRange := by
  unfold ParseDevice
  rw [h]
  rcases hrest with hnil | ⟨p, hp, hvp⟩
  · subst hnil
    simp [parseDeviceArr, parseDeviceFrom2, IsValidDeviceMode]
  · subst hp
    have hpne : ¬p = "" := by
      intro he; subst he; simp [IsValidDeviceMode] at hvp
    have hvc : validModeChars ['r', 'w', 'm'] p.data = true := by
      unfold IsValidDeviceMode at hvp
      rw [if_neg hpne] at hvp
      exact hvp
    simp [parseDeviceArr, parseDeviceFrom2, IsValidDeviceMode, hpne, hvc]

theorem parse_device_empty_second_field_witness :
    goSplit "/dev/foo:" ':' = ["/dev/foo", ""]
    ∧ ParseDevice "/dev/foo:" = .outOfRange
    ∧ goSplit "/dev/foo::rw" ':' = ["/dev/foo", "", "rw"]
    ∧ ParseDevice "/dev/foo::rw" = .outOfRange :=
  ⟨by decide,
   parse_device_empty_second_field "/dev/foo:" "/dev/foo" [] (by decide) (Or.inl rfl),
   by decide,
   parse_device_empty_second_field "/dev/foo::rw" "/dev/foo" ["rw"] (by decide)
     (Or.inr ⟨"rw", rfl, by decide⟩)⟩

/-! ## `makeCommand` (pkg/specgen/generate/oci_freebsd.go) -/

structure ImageData where
  entrypoint : List String
  cmd : List String
  deriving DecidableEq

/-- The fields of the spec generator consumed by `makeCommand`.
`entrypoint` is an `Option` because the Go code distinguishes a nil
`Entrypoint` slice (`entrypoint == nil`) from a present, possibly empty one. -/
structure CommandSpec where
  entrypoint : Option (List String)
  command : List String
  init : Bool
  initPath : String
  deriving DecidableEq

structure EngineConfig where
  initPath : String
  deriving DecidableEq

/-- `len(s.Entrypoint)`: a nil slice has length 0. -/
def specEntrypointLen (s : CommandSpec) : Nat :=
  match s.entrypoint with
  | none => 0
  | some e => e.length

/-- `entrypoint := s.Entrypoint`, replaced by the image entrypoint only when
the user slice is nil and image data is present. -/
def effectiveEntrypoint (s : CommandSpec) (imageData : Option ImageData) : List String :=
  match s.entrypoint, imageData with
  | none, some i => i.entrypoint
  | none, none => []
  | some e, _ => e

/-- `command := s.Command`, replaced by the image command only when the user
command is empty, image data is present and the user set no entrypoint. -/
def effectiveCommand (s : CommandSpec) (imageData : Option ImageData) : List String :=
  match imageData with
  | some i =>
    if s.command = [] ∧ specEntrypointLen s = 0 then i.cmd else s.command
  | none => s.command

def noCommandMsg : String :=
  "no command or entrypoint provided, and no CMD or ENTRYPOINT from image"

/-- `makeCommand` produces the final command for the container. -/
def makeCommand (s : CommandSpec) (imageData : Option ImageData)
    (rtc : Option EngineConfig) : Except String (List String) :=
  let entrypoint := effectiveEntrypoint s imageData
  -- don't append the entrypoint if it is [""]
  let fc0 :=
    if entrypoint.length ≠ 1 ∨ entrypoint.head? ≠ some "" then entrypoint else []
  let finalCommand := fc0 ++ effectiveCommand s imageData
  if finalCommand = [] then
    .error noCommandMsg
  else if s.init then
    let initPath :=
      if s.initPath = "" then
        match rtc with
        | some r => r.initPath
        | none => s.initPath
      else s.initPath
    if initPath = "" then
      .error "no path to init binary found but container requested an init"
    else
      .ok (["/dev/init", "--"] ++ finalCommand)
  else
    .ok finalCommand

/-- C9: entrypoint/command precedence in `makeCommand` — an explicit
entrypoint makes the image entrypoint irrelevant; an explicit command (or
any explicit entrypoint elements) makes the image command irrelevant; a
single empty-string entrypoint prepends nothing; and an empty assembled
command is a configuration error. -/
theorem make_command_precedence (s : CommandSpec) (img : Option ImageData)
    (rtc : Option EngineConfig) (e ep1 ep2 cmd1 cmd2 icmd iep : List String) :
    (s.entrypoint = some e →
      makeCommand s (some ⟨ep1, icmd⟩) rtc = makeCommand s (some ⟨ep2, icmd⟩) rtc)
    ∧ ((s.command ≠ [] ∨ specEntrypointLen s ≠ 0) →
      makeCommand s (some ⟨iep, cmd1⟩) rtc = makeCommand s (some ⟨iep, cmd2⟩) rtc)
    ∧ (s.entrypoint = some [""] → s.init = false → s.command ≠ [] →
      makeCommand s img rtc = .ok s.command)
    ∧ ((effectiveEntrypoint s img = [] ∨ effectiveEntrypoint s img = [""]) →
      effectiveCommand s img = [] →
      makeCommand s img rtc = .error noCommandMsg) := by
  refine ⟨?_, ?_, ?_, ?_⟩
  · intro h
    simp [makeCommand, effectiveEntrypoint, effectiveCommand, specEntrypointLen, h]
  · intro h
    have hcmd : effectiveCommand s (some ⟨iep, cmd1⟩) = s.command ∧
        effectiveCommand s (some ⟨iep, cmd2⟩) = s.command := by
      rcases h with h | h <;> simp [effectiveCommand, h]
    have hep : effectiveEntrypoint s (some ⟨iep, cmd1⟩)
        = effectiveEntrypoint s (some ⟨iep, cmd2⟩) := by
      cases hse : s.entrypoint <;> simp [effectiveEntrypoint, hse]
    simp only [makeCommand]
    rw [hep, hcmd.1, hcmd.2]
  · intro hep hinit hcmd
    have heff : effectiveEntrypoint s img = [""] := by
      cases img <;> simp [effectiveEntrypoint, hep]
    have hec : effectiveCommand s img = s.command := by
      cases img with
      | none => rfl
      | some i => simp [effectiveCommand, specEntrypointLen, hep, hcmd]
    simp [makeCommand, heff, hec, hinit, hcmd]
  · intro hep hcmd
    rcases hep with hep | hep <;> simp [makeCommand, hep, hcmd]

theorem make_command_precedence_witness :
    makeCommand ⟨some ["e"], ["c"], false, ""⟩ (some ⟨["x"], ["ic"]⟩) none
      = makeCommand ⟨some ["e"], ["c"], false, ""⟩ (some ⟨["y"], ["ic"]⟩) none
    ∧ makeCommand ⟨some ["e"], ["c"], false, ""⟩ (some ⟨["ie"], ["c1"]⟩) none
      = makeCommand ⟨some ["e"], ["c"], false, ""⟩ (some ⟨["ie"], ["c2"]⟩) none
    ∧ makeCommand ⟨some [""], ["c"], false, ""⟩ (some ⟨["ie"], ["ic"]⟩) none = .ok ["c"]
    ∧ makeCommand ⟨some [""], [], false, ""⟩ none none = .error noCommandMsg := by
  refine ⟨?_, ?_, ?_, ?_⟩
  · exact (make_command_precedence ⟨some ["e"], ["c"], false, ""⟩ none none
      ["e"] ["x"] ["y"] [] [] ["ic"] []).1 rfl
  · exact (make_command_precedence ⟨some ["e"], ["c"], false, ""⟩ none none
      [] [] [] ["c1"] ["c2"] [] ["ie"]).2.1 (Or.inl (by simp))
  · exact (make_command_precedence ⟨some [""], ["c"], false, ""⟩
      (some ⟨["ie"], ["ic"]⟩) none [] [] [] [] [] [] []).2.2.1 rfl rfl (by simp)
  · exact (make_command_precedence ⟨some [""], [], false, ""⟩ none none
      [] [] [] [] [] [] []).2.2.2 (Or.inr rfl) rfl

/-! ## Go errors (github.com/pkg/errors) -/

inductive GoError where
  | msg (s : String)
  | wrap (s : String) (inner : GoError)
  deriving DecidableEq

/-- `errors.Wrapf` from github.com/pkg/errors: wrapping a nil error yields nil. -/
def errorsWrapf (err : Option GoError) (m : String) : Option GoError :=
  match err with
  | none => none
  | some e => some (.wrap m e)

instance instDecEqExcept {ε α : Type} [DecidableEq ε] [DecidableEq α] :
    DecidableEq (Except ε α) := fun a b =>
  match a, b with
  | .error x, .error y =>
    if h : x = y then isTrue (congrArg Except.error h)
    else isFalse fun hx => h (Except.error.inj hx)
  | .ok x, .ok y =>
    if h : x = y then isTrue (congrArg Except.ok h)
    else isFalse fun hx => h (Except.ok.inj hx)
  | .error _, .ok _ => isFalse fun hx => Except.noConfusion hx
  | .ok _, .error _ => isFalse fun hx => Except.noConfusion hx

/-! ## `specConfigureNamespaces` (pkg/specgen/generate/namespaces_freebsd.go) -/

inductive NSMode where
  | defaultMode
  | host
  | path
  | fromPod
  | fromContainer
  | privateNS
  | noNetwork
  deriving DecidableEq

structure NamespaceOption where
  nsmode : NSMode
  value : String
  deriving DecidableEq

/-- The spec-generator fields consumed by the UTS/hostname logic. -/
structure UTSSpec where
  hostname : String
  utsNS : NamespaceOption
  netNS : NamespaceOption
  env : List (String × String)
  deriving DecidableEq

/-- Outcomes of the external lookups the hostname switch can perform. -/
structure NSEnv where
  podHostname : String
  utsCtrHostname : Except GoError String
  osHostname : Except GoError String

/-- Go map lookup `s.Env[k]`. -/
def envLookup (env : List (String × String)) (k : String) : Option String :=
  match env with
  | [] => none
  | (k0, v) :: rest => if k0 = k then some v else envLookup rest k

/-- The hostname switch of `specConfigureNamespaces`: explicit override, else
pod hostname when sharing the pod UTS namespace, else the hostname of the
named dependency container, else the host hostname when joining the host UTS
or network namespace, else left empty (runtime default). -/
def computeHostname (s : UTSSpec) (e : NSEnv) : Except GoError String :=
  if s.hostname = "" then
    if s.utsNS.nsmode = .fromPod then .ok e.podHostname
    else if s.utsNS.nsmode = .fromContainer then
      match e.utsCtrHostname with
      | .error err =>
        .error (.wrap "error looking up container to share uts namespace with" err)
      | .ok h => .ok h
    else if (s.netNS.nsmode = .host ∧ s.hostname = "") ∨ s.utsNS.nsmode = .host then
      match e.osHostname with
      | .error err => .error (.wrap "unable to retrieve hostname of the host" err)
      | .ok h => .ok h
    else
      -- logrus.Debug: no hostname set; container hostname defaults in the runtime
      .ok s.hostname
  else .ok s.hostname

/-- Observable effects of `specConfigureNamespaces`: the computed local
`hostname`, the argument of `g.SetHostname` (none when the hostname is left
removed), and the `g.AddProcessEnv` calls. -/
structure NSOutcome where
  hostname : String
  hostnameSet : Option String
  envAdded : List (String × String)
  deriving DecidableEq

def specConfigureNamespaces (s : UTSSpec) (e : NSEnv) : Except GoError NSOutcome :=
  match computeHostname s e with
  | .error err => .error err
  | .ok hostname =>
    .ok { hostname := hostname
        , hostnameSet :=
            if s.hostname ≠ "" ∨ s.utsNS.nsmode ≠ .host then some hostname else none
        , envAdded :=
            if (envLookup s.env "HOSTNAME").isNone ∧ s.hostname ≠ "" then
              [("HOSTNAME", hostname)]
            else [] }

def hostnameCexSpec : UTSSpec :=
  { hostname := "", utsNS := ⟨.fromPod, ""⟩, netNS := ⟨.privateNS, ""⟩, env := [] }

def hostnameCexEnv : NSEnv :=
  { podHostname := "podhost", utsCtrHostname := .ok "", osHostname := .ok "machine" }

/-- C7 fails as stated: sharing the pod UTS namespace determines the
hostname "podhost" by the precedence, `HOSTNAME` is not in the user
environment, yet no `HOSTNAME` variable is injected — the code injects only
when the explicit hostname override `s.Hostname` is non-empty. -/
theorem hostname_env_injection_counterexample :
    specConfigureNamespaces hostnameCexSpec hostnameCexEnv
      = .ok { hostname := "podhost", hostnameSet := some "podhost", envAdded := [] }
    ∧ envLookup hostnameCexSpec.env "HOSTNAME" = none
    ∧ hostnameCexSpec.hostname = "" := ⟨rfl, rfl, rfl⟩

/-- C7 amended: the hostname precedence is as claimed, but `HOSTNAME` is
added to the process environment iff it is absent from the user environment
and an explicit hostname override was given (a hostname inherited from the
pod, a dependency container or the host does not cause injection). -/
theorem hostname_precedence_and_env (s : UTSSpec) (e : NSEnv) (o : NSOutcome)
    (h : specConfigureNamespaces s e = .ok o) :
    (s.hostname ≠ "" → o.hostname = s.hostname)
    ∧ (s.hostname = "" → s.utsNS.nsmode = .fromPod → o.hostname = e.podHostname)
    ∧ (∀ hc, s.hostname = "" → s.utsNS.nsmode = .fromContainer →
        e.utsCtrHostname = .ok hc → o.hostname = hc)
    ∧ (∀ hh, s.hostname = "" → s.utsNS.nsmode ≠ .fromPod →
        s.utsNS.nsmode ≠ .fromContainer →
        (s.netNS.nsmode = .host ∨ s.utsNS.nsmode = .host) →
        e.osHostname = .ok hh → o.hostname = hh)
    ∧ (s.hostname = "" → s.utsNS.nsmode ≠ .fromPod →
        s.utsNS.nsmode ≠ .fromContainer → s.utsNS.nsmode ≠ .host →
        s.netNS.nsmode ≠ .host → o.hostname = "")
    ∧ (o.envAdded =
        if (envLookup s.env "HOSTNAME").isNone ∧ s.hostname ≠ "" then
          [("HOSTNAME", o.hostname)]
        else []) := by
  unfold specConfigureNamespaces at h
  cases hch : computeHostname s e with
  | error err => rw [hch] at h; exact absurd h (by simp)
  | ok hostname =>
    rw [hch] at h
    simp only [Except.ok.injEq] at h
    subst h
    refine ⟨?_, ?_, ?_, ?_, ?_, ?_⟩
    · intro hne
      unfold computeHostname at hch
      rw [if_neg hne] at hch
      cases hch; rfl
    · intro he hpod
      unfold computeHostname at hch
      rw [if_pos he, if_pos hpod] at hch
      cases hch; rfl
    · intro hc he hctr hlook
      unfold computeHostname at hch
      have hnp : s.utsNS.nsmode ≠ .fromPod := by rw [hctr]; intro hx; cases hx
      rw [if_pos he, if_neg hnp, if_pos hctr, hlook] at hch
      cases hch; rfl
    · intro hh he hnp hnc hhost hlook
      unfold computeHostname at hch
      rw [if_pos he, if_neg hnp, if_neg hnc,
        if_pos (by rcases hhost with hx | hx; exact Or.inl ⟨hx, he⟩; exact Or.inr hx),
        hlook] at hch
      cases hch; rfl
    · intro he hnp hnc hnuh hnnh
      unfold computeHostname at hch
      rw [if_pos he, if_neg hnp, if_neg hnc,
        if_neg (by rintro (⟨hx, _⟩ | hx); exact hnnh hx; exact hnuh hx)] at hch
      cases hch
      exact he
    · rfl

theorem hostname_precedence_and_env_witness :
    specConfigureNamespaces
        ⟨"myhost", ⟨.privateNS, ""⟩, ⟨.privateNS, ""⟩, []⟩ hostnameCexEnv
      = .ok ⟨"myhost", some "myhost", [("HOSTNAME", "myhost")]⟩
    ∧ (⟨"myhost", some "myhost", [("HOSTNAME", "myhost")]⟩ : NSOutcome).hostname
        = "myhost" := by
  have h := hostname_precedence_and_env
    ⟨"myhost", ⟨.privateNS, ""⟩, ⟨.privateNS, ""⟩, []⟩ hostnameCexEnv
    ⟨"myhost", some "myhost", [("HOSTNAME", "myhost")]⟩ rfl
  exact ⟨rfl, h.1 (by decide)⟩

/-! ## `generateSpec`: named-volume overlay options (libpod, unnamed/part_001) -/

structure NamedVolume where
  name : String
  dest : String
  options : List String
  deriving DecidableEq

/-- An OCI spec mount. -/
structure SpecMount where
  type : String
  source : String
  destination : String
  options : List String
  deriving DecidableEq

/-- Go `strings.Contains(s, sub)`. -/
def goContains (s sub : String) : Bool :=
  decide (sub.toList <:+: s.toList)

/-- Go `strings.SplitN(s, string(sep), 2)`. -/
def goSplitN2 (s : String) (sep : Char) : List String :=
  match splitCh sep s.toList with
  | [] => [s]
  | [_] => [s]
  | fld :: rest => [String.mk fld, String.mk (List.intercalate [sep] rest)]

/-- The option scan of the named-volume loop in `generateSpec`: "O" raises
the overlay flag, and once the flag is up, options containing "upperdir" /
"workdir" record the fragment after `=`, rejecting empty values. -/
def scanOverlayOpts : List String → Bool → String → String →
    Except GoError (Bool × String × String)
  | [], flag, u, w => .ok (flag, u, w)
  | o :: rest, flag, u, w =>
    let flag := if o = "O" then true else flag
    let stepU : Except GoError String :=
      if flag ∧ goContains o "upperdir" then
        match goSplitN2 o '=' with
        | [_, v] =>
          if v = "" then .error (.msg "cannot accept empty value for upperdir") else .ok v
        | _ => .ok u
      else .ok u
    match stepU with
    | .error e => .error e
    | .ok u =>
      let stepW : Except GoError String :=
        if flag ∧ goContains o "workdir" then
          match goSplitN2 o '=' with
          | [_, v] =>
            if v = "" then .error (.msg "cannot accept empty value for workdir") else .ok v
          | _ => .ok w
        else .ok w
      match stepW with
      | .error e => .error e
      | .ok w => scanOverlayOpts rest flag u w

/-- Outcomes of the external calls made while processing one named volume. -/
structure VolumeEnv where
  getVolumeMountPoint : Except GoError String
  tempDir : Except GoError String
  overlayMount : Except GoError SpecMount
  chownUpper : Except GoError Unit
  chownContent : Except GoError Unit

/-- One iteration of the named-volume loop of `generateSpec`.  The result
mirrors the Go pair `(*spec.Spec, error)` shape for this fragment: a mount
to add and a nil error on success, no mount and an error on failure — and,
on the upperdir/workdir mismatch branch, no mount and a NIL error, because
the Go code passes the (nil) `err` of the preceding `overlay.TempDir` call
to `errors.Wrapf`, which returns nil for a nil error. -/
def processNamedVolume (v : NamedVolume) (env : VolumeEnv) :
    Option SpecMount × Option GoError :=
  match env.getVolumeMountPoint with
  | .error e => (none, some (.wrap ("error retrieving volume " ++ v.name) e))
  | .ok mountPoint =>
    match scanOverlayOpts v.options false "" "" with
    | .error e => (none, some e)
    | .ok (overlayFlag, upperDir, workDir) =>
      if overlayFlag then
        match env.tempDir with
        | .error e => (none, some e)
        | .ok _contentDir =>
          if (upperDir ≠ "" ∧ workDir = "") ∨ (upperDir = "" ∧ workDir ≠ "") then
            let err : Option GoError := none
            (none, errorsWrapf err "must specify both upperdir and workdir")
          else
            match env.overlayMount with
            | .error e => (none, some (.wrap ("mounting overlay failed " ++ mountPoint) e))
            | .ok m =>
              if v.options.contains "U" then
                match env.chownUpper with
                | .error e => (none, some e)
                | .ok _ =>
                  match env.chownContent with
                  | .error e => (none, some e)
                  | .ok _ => (some m, none)
              else (some m, none)
      else
        (some { type := "nullfs", source := mountPoint
              , destination := v.dest, options := v.options }, none)

/-- The named-volume loop of `generateSpec`: the first non-success iteration
aborts spec generation, propagating the (possibly nil) error. -/
def generateSpecNamedVolumes : List (NamedVolume × VolumeEnv) →
    Option (List SpecMount) × Option GoError
  | [] => (some [], none)
  | (v, env) :: rest =>
    match processNamedVolume v env with
    | (some m, none) =>
      match generateSpecNamedVolumes rest with
      | (some ms, none) => (some (m :: ms), none)
      | other => (none, other.2)
    | (_, e) => (none, e)

def upperOnlyVolume : NamedVolume := ⟨"myvol", "/data", ["O", "upperdir=/tmp/upper"]⟩

def bothDirsVolume : NamedVolume :=
  ⟨"myvol", "/data", ["O", "upperdir=/tmp/upper", "workdir=/tmp/work"]⟩

def plainOverlayVolume : NamedVolume := ⟨"myvol", "/data", ["O"]⟩

def allOkVolumeEnv : VolumeEnv :=
  { getVolumeMountPoint := .ok "/var/db/volumes/myvol"
  , tempDir := .ok "/var/db/containers/overlay-tmp"
  , overlayMount := .ok ⟨"overlay", "overlay", "/data", []⟩
  , chownUpper := .ok ()
  , chownContent := .ok () }

/-- C2-cited behaviour of C5 evaluated at the failing input: a named volume
carrying "O" with an upperdir fragment but no workdir fragment makes
`generateSpec` return with NO error (and no spec): the intended
configuration error is lost because `errors.Wrapf` wraps a nil error.  The
volume is nevertheless converted to an overlay only when both fragments or
neither are present. -/
theorem named_volume_upper_without_work_no_error :
    processNamedVolume upperOnlyVolume allOkVolumeEnv = (none, none)
    ∧ generateSpecNamedVolumes [(upperOnlyVolume, allOkVolumeEnv)] = (none, none)
    ∧ scanOverlayOpts upperOnlyVolume.options false "" "" = .ok (true, "/tmp/upper", "")
    ∧ processNamedVolume bothDirsVolume allOkVolumeEnv
        = (some ⟨"overlay", "overlay", "/data", []⟩, none)
    ∧ processNamedVolume plainOverlayVolume allOkVolumeEnv
        = (some ⟨"overlay", "overlay", "/data", []⟩, none) := by
  refine ⟨?_, ?_, ?_, ?_, ?_⟩ <;> decide

/-! ## `makeBindMounts` and the accumulated-bind-mount loop of `generateSpec`
(libpod, unnamed/part_001) -/

/-- The bind-mount map: in-container destination path → host source path. -/
abbrev BindMap := List (String × String)

def bmLookup (m : BindMap) (k : String) : Option String :=
  match m with
  | [] => none
  | (k0, v) :: rest => if k0 = k then some v else bmLookup rest k

def bmRemoveKey (m : BindMap) (k : String) : BindMap :=
  match m with
  | [] => []
  | (k0, v) :: rest =>
    if k0 = k then bmRemoveKey rest k else (k0, v) :: bmRemoveKey rest k

/-- Go map assignment `m[k] = v`. -/
def bmSet (m : BindMap) (k v : String) : BindMap :=
  (k, v) :: bmRemoveKey m k

/-- Trace of bind-mount-map updates: `assigned` records a raw map write with
the value previously stored under the key, and whether a conflict message
was logged for it; `skippedExisting` records an explicit skip because the
key was present. -/
inductive BMEvent where
  | assigned (dest src : String) (previous : Option String) (logged : Bool)
  | skippedExisting (dest : String)
  deriving DecidableEq

structure BMState where
  map : BindMap
  events : List BMEvent
  deriving DecidableEq

/-- A raw `c.state.BindMounts[dest] = src`; no call site in `makeBindMounts`
logs a conflict, hence `logged := false`. -/
def bmAssign (st : BMState) (dest src : String) : BMState :=
  { map := bmSet st.map dest src
  , events := st.events ++ [.assigned dest src (bmLookup st.map dest) false] }

def bmDelete (st : BMState) (k : String) : BMState :=
  { st with map := bmRemoveKey st.map k }

/-- `filepath.IsAbs` for clean paths. -/
def isAbsPath (p : String) : Bool :=
  decide (p.toList.head? = some '/')

/-- `filepath.Join` restricted to two already-clean components, as used for
chroot-directory and secret destinations. -/
def joinPath (a b : String) : String :=
  if a = "" then b
  else if isAbsPath b then a ++ b
  else a ++ "/" ++ b

/-- `mountIntoRootDirs`: sets the entry and repeats it under every
configured chroot directory; the Go function always returns nil. -/
def mountIntoRootDirs (chrootDirs : List String) (st : BMState)
    (mountName mountPath : String) : BMState :=
  let st := bmAssign st mountName mountPath
  chrootDirs.foldl (fun st dir => bmAssign st (joinPath dir mountName) mountPath) st

structure ContainerSecret where
  name : String
  target : String
  deriving DecidableEq

structure SubscriptionMount where
  destination : String
  source : String
  deriving DecidableEq

/-- The configuration fields consumed by `makeBindMounts`. -/
structure BindMountsConfig where
  netNsCtr : String
  useImageResolvConf : Bool
  useImageHosts : Bool
  passwd : Option Bool
  timezone : String
  chrootDirs : List String
  secretsPath : String
  secrets : List ContainerSecret

/-- Outcomes of the external calls `makeBindMounts` performs. -/
structure BindMountsEnv where
  chownRunDir : Except GoError Unit
  networkDisabled : Except GoError Bool
  removeResolv : Except GoError Unit
  removeHosts : Except GoError Unit
  depCtrBindMounts : Except GoError BindMap
  lockHosts : Except GoError Unit
  etchostsAdd : Except GoError Unit
  hasCurrentUserMapped : Bool
  makeAccessibleResolv : Except GoError Unit
  makeAccessibleHosts : Except GoError Unit
  generateResolvConfPath : Except GoError String
  createHostsPath : Except GoError String
  relabelHosts : Except GoError Unit
  relabelResolv : Except GoError Unit
  generatePasswdAndGroup : Except GoError (String × String)
  timezoneValid : Except GoError Unit
  zoneCopyPath : Except GoError String
  containerenvPath : Except GoError String
  subscriptionMounts : List SubscriptionMount
  createSecretMountDir : Except GoError Unit

def staleDeleteResolv (env : BindMountsEnv) (st : BMState) : Except GoError BMState :=
  match bmLookup st.map "/etc/resolv.conf" with
  | some _ =>
    match env.removeResolv with
    | .error e => .error e
    | .ok _ => .ok (bmDelete st "/etc/resolv.conf")
  | none => .ok st

def staleDeleteHosts (env : BindMountsEnv) (st : BMState) : Except GoError BMState :=
  match bmLookup st.map "/etc/hosts" with
  | some _ =>
    match env.removeHosts with
    | .error e => .error e
    | .ok _ => .ok (bmDelete st "/etc/hosts")
  | none => .ok st

/-- Sharing a network namespace with a dependency container: import its
resolv.conf and hosts entries (appending this container to the shared hosts
file first). -/
def depCtrPhase (cfg : BindMountsConfig) (env : BindMountsEnv) (st : BMState) :
    Except GoError BMState :=
  match env.depCtrBindMounts with
  | .error e => .error (.wrap "error fetching bind mounts from dependency" e)
  | .ok dep =>
    let st :=
      match bmLookup dep "/etc/resolv.conf" with
      | some resolvPath =>
        if ¬cfg.useImageResolvConf then
          mountIntoRootDirs cfg.chrootDirs st "/etc/resolv.conf" resolvPath
        else st
      | none => st
    let hostsStep : Except GoError BMState :=
      match bmLookup dep "/etc/hosts" with
      | some hostsPath =>
        if ¬cfg.useImageHosts then
          match env.lockHosts with
          | .error e => .error e
          | .ok _ =>
            match env.etchostsAdd with
            | .error e => .error (.wrap "error creating hosts file" e)
            | .ok _ => .ok (mountIntoRootDirs cfg.chrootDirs st "/etc/hosts" hostsPath)
        else .ok st
      | none => .ok st
    match hostsStep with
    | .error e => .error e
    | .ok st =>
      if ¬env.hasCurrentUserMapped then
        match env.makeAccessibleResolv with
        | .error e => .error e
        | .ok _ =>
          match env.makeAccessibleHosts with
          | .error e => .error e
          | .ok _ => .ok st
      else .ok st

/-- Not sharing: generate fresh resolv.conf / hosts files unless the image's
own files were requested. -/
def genFilesPhase (cfg : BindMountsConfig) (env : BindMountsEnv) (st : BMState) :
    Except GoError BMState :=
  let resolvStep : Except GoError BMState :=
    if ¬cfg.useImageResolvConf then
      match env.generateResolvConfPath with
      | .error e => .error (.wrap "error creating resolv.conf" e)
      | .ok p => .ok (mountIntoRootDirs cfg.chrootDirs st "/etc/resolv.conf" p)
    else .ok st
  match resolvStep with
  | .error e => .error e
  | .ok st =>
    if ¬cfg.useImageHosts then
      match env.createHostsPath with
      | .error e => .error (.wrap "error creating hosts file" e)
      | .ok p => .ok (mountIntoRootDirs cfg.chrootDirs st "/etc/hosts" p)
    else .ok st

def relabelPhase (env : BindMountsEnv) (st : BMState) : Except GoError BMState :=
  match (if (bmLookup st.map "/etc/hosts").getD "" ≠ "" then env.relabelHosts
         else .ok ()) with
  | .error e => .error e
  | .ok _ =>
    match (if (bmLookup st.map "/etc/resolv.conf").getD "" ≠ "" then env.relabelResolv
           else .ok ()) with
    | .error e => .error e
    | .ok _ => .ok st

def resolvHostsPhase (cfg : BindMountsConfig) (env : BindMountsEnv)
    (netDisabled : Bool) (st : BMState) : Except GoError BMState :=
  if ¬netDisabled then
    let stale : Except GoError BMState :=
      if cfg.netNsCtr = "" then
        match staleDeleteResolv env st with
        | .error e => .error e
        | .ok st => staleDeleteHosts env st
      else .ok st
    match stale with
    | .error e => .error e
    | .ok st =>
      match (if cfg.netNsCtr ≠ "" ∧ (¬cfg.useImageResolvConf ∨ ¬cfg.useImageHosts) then
               depCtrPhase cfg env st
             else genFilesPhase cfg env st) with
      | .error e => .error e
      | .ok st => relabelPhase env st
  else
    match env.createHostsPath with
    | .error e => .error (.wrap "error creating hosts file" e)
    | .ok p => .ok (mountIntoRootDirs cfg.chrootDirs st "/etc/hosts" p)

/-- Identity files: a freshly generated passwd/group file replaces any
existing entry through an explicit delete followed by an assignment. -/
def passwdPhase (cfg : BindMountsConfig) (env : BindMountsEnv) (st : BMState) :
    Except GoError BMState :=
  if cfg.passwd = none ∨ cfg.passwd = some true then
    match env.generatePasswdAndGroup with
    | .error e => .error (.wrap "error creating temporary passwd file" e)
    | .ok (newPasswd, newGroup) =>
      let st :=
        if newPasswd ≠ "" then bmAssign (bmDelete st "/etc/passwd") "/etc/passwd" newPasswd
        else st
      let st :=
        if newGroup ≠ "" then bmAssign (bmDelete st "/etc/group") "/etc/group" newGroup
        else st
      .ok st
  else .ok st

def localtimePhase (cfg : BindMountsConfig) (env : BindMountsEnv) (st : BMState) :
    Except GoError BMState :=
  if cfg.timezone ≠ "" then
    match env.timezoneValid with
    | .error e => .error e
    | .ok _ =>
      match bmLookup st.map "/etc/localtime" with
      | some _ => .ok st
      | none =>
        match env.zoneCopyPath with
        | .error e => .error e
        | .ok p => .ok (bmAssign st "/etc/localtime" p)
  else .ok st

def containerenvPhase (env : BindMountsEnv) (st : BMState) : Except GoError BMState :=
  match bmLookup st.map "/run/.containerenv" with
  | some _ => .ok st
  | none =>
    match env.containerenvPath with
    | .error e => .error (.wrap "error creating containerenv file" e)
    | .ok p => .ok (bmAssign st "/run/.containerenv" p)

/-- Subscription mounts are added only if the destination key is absent. -/
def subscriptionsStep (st : BMState) : List SubscriptionMount → BMState
  | [] => st
  | m :: rest =>
    match bmLookup st.map m.destination with
    | none => subscriptionsStep (bmAssign st m.destination m.source) rest
    | some _ =>
      subscriptionsStep
        { st with events := st.events ++ [.skippedExisting m.destination] } rest

/-- Destination of a secret bind mount: the target (absolute targets escape
the `/run/secrets` base), else the secret name under `/run/secrets`. -/
def secretDest (secret : ContainerSecret) : String :=
  let secretFileName := if secret.target ≠ "" then secret.target else secret.name
  let base := if secret.target ≠ "" ∧ isAbsPath secret.target then "" else "/run/secrets"
  joinPath base secretFileName

/-- The secrets loop: an unconditional map write per secret. -/
def secretsStep (secretsPath : String) (st : BMState) : List ContainerSecret → BMState
  | [] => st
  | secret :: rest =>
    secretsStep secretsPath
      (bmAssign st (secretDest secret) (joinPath secretsPath secret.name)) rest

def secretsPhase (cfg : BindMountsConfig) (env : BindMountsEnv) (st : BMState) :
    Except GoError BMState :=
  if cfg.secrets ≠ [] then
    match env.createSecretMountDir with
    | .error e => .error (.wrap "error creating secrets mount" e)
    | .ok _ => .ok (secretsStep cfg.secretsPath st cfg.secrets)
  else .ok st

/-- `makeBindMounts`, sequencing the phases in source order. -/
def makeBindMounts (cfg : BindMountsConfig) (env : BindMountsEnv) (st : BMState) :
    Except GoError BMState :=
  match env.chownRunDir with
  | .error e => .error (.wrap "cannot chown run directory" e)
  | .ok _ =>
    match env.networkDisabled with
    | .error e => .error e
    | .ok netDisabled =>
      match resolvHostsPhase cfg env netDisabled st with
      | .error e => .error e
      | .ok st =>
        match passwdPhase cfg env st with
        | .error e => .error e
        | .ok st =>
          match localtimePhase cfg env st with
          | .error e => .error e
          | .ok st =>
            match containerenvPhase env st with
            | .error e => .error e
            | .ok st =>
              let st := subscriptionsStep st env.subscriptionMounts
              secretsPhase cfg env st

/-- The `/run/notify` bind mount of `mountNotifySocket`: added only when the
key is absent. -/
def notifySocketStep (st : BMState) (notifyDir : String) : BMState :=
  match bmLookup st.map "/run/notify" with
  | some _ => { st with events := st.events ++ [.skippedExisting "/run/notify"] }
  | none => bmAssign st "/run/notify" notifyDir

/-- Modelled from the spec: `MountExists` (a libpod helper whose body is not
in the excerpt; only its callers are) — true iff some spec mount already has
the given destination. -/
def MountExists (specMounts : List SpecMount) (dest : String) : Bool :=
  specMounts.any fun m => m.destination = dest

def conflictMsg (dest : String) : String :=
  "User mount overriding libpod mount at " ++ dest

/-- The accumulated-bind-mount loop of `generateSpec`: each map entry is
added as a nullfs mount only if its destination is not already mounted,
otherwise the existing mount wins and a conflict message is logged. -/
def addBindMountsToSpec (mounts : List SpecMount) : BindMap → List SpecMount × List String
  | [] => (mounts, [])
  | (dstPath, srcPath) :: rest =>
    if ¬ MountExists mounts dstPath then
      addBindMountsToSpec (mounts ++ [⟨"nullfs", srcPath, dstPath, []⟩]) rest
    else
      let r := addBindMountsToSpec mounts rest
      (r.1, conflictMsg dstPath :: r.2)

def bmCexConfig : BindMountsConfig :=
  { netNsCtr := ""
  , useImageResolvConf := true
  , useImageHosts := true
  , passwd := some false
  , timezone := ""
  , chrootDirs := []
  , secretsPath := "/var/lib/secrets"
  , secrets := [⟨"mysecret", ""⟩] }

def bmCexEnv : BindMountsEnv :=
  { chownRunDir := .ok ()
  , networkDisabled := .ok false
  , removeResolv := .ok ()
  , removeHosts := .ok ()
  , depCtrBindMounts := .ok []
  , lockHosts := .ok ()
  , etchostsAdd := .ok ()
  , hasCurrentUserMapped := true
  , makeAccessibleResolv := .ok ()
  , makeAccessibleHosts := .ok ()
  , generateResolvConfPath := .ok "/run/ctr/resolv.conf"
  , createHostsPath := .ok "/run/ctr/hosts"
  , relabelHosts := .ok ()
  , relabelResolv := .ok ()
  , generatePasswdAndGroup := .ok ("", "")
  , timezoneValid := .ok ()
  , zoneCopyPath := .ok "/run/ctr/localtime"
  , containerenvPath := .ok "/run/ctr/.containerenv"
  , subscriptionMounts := [⟨"/run/secrets/mysecret", "/usr/share/containers/mounts/mysecret"⟩]
  , createSecretMountDir := .ok () }

/-- C6 fails as stated: a secret whose destination coincides with an entry
just added by the subscriptions subsystem overwrites it with no skip and no
log — the final trace records an assignment over `previous = some _` with
`logged = false`, and the map holds the secret's source. -/
theorem secrets_silent_overwrite_counterexample :
    makeBindMounts bmCexConfig bmCexEnv ⟨[], []⟩ = .ok
      ⟨[("/run/secrets/mysecret", "/var/lib/secrets/mysecret"),
        ("/run/.containerenv", "/run/ctr/.containerenv")],
       [.assigned "/run/.containerenv" "/run/ctr/.containerenv" none false,
        .assigned "/run/secrets/mysecret" "/usr/share/containers/mounts/mysecret" none false,
        .assigned "/run/secrets/mysecret" "/var/lib/secrets/mysecret"
          (some "/usr/share/containers/mounts/mysecret") false]⟩ := by
  decide

theorem mountExists_append (ms : List SpecMount) (m : SpecMount) (d : String) :
    MountExists (ms ++ [m]) d = (MountExists ms d || m.destination = d) := by
  simp [MountExists, List.any_append]

theorem filter_ext {α : Type} (p q : α → Bool) :
    ∀ (l : List α), (∀ x ∈ l, p x = q x) → l.filter p = l.filter q := by
  intro l
  induction l with
  | nil => intro _; rfl
  | cons a rest ih =>
    intro h
    have ha := h a (List.mem_cons_self a rest)
    have hrest := ih fun x hx => h x (List.mem_cons_of_mem a hx)
    simp only [List.filter, ha, hrest]

/-- Closed form of the accumulated-bind-mount loop, for a map with distinct
destinations: exactly the entries whose destination is not yet mounted are
appended, in order, and exactly the others produce a conflict log. -/
theorem addBindMountsToSpec_closed_form :
    ∀ (bm : BindMap) (ms : List SpecMount), (bm.map Prod.fst).Nodup →
      addBindMountsToSpec ms bm
        = (ms ++ (bm.filter fun p => !MountExists ms p.1).map
              (fun p => ⟨"nullfs", p.2, p.1, []⟩),
           (bm.filter fun p => MountExists ms p.1).map fun p => conflictMsg p.1) := by
  intro bm
  induction bm with
  | nil => intro ms _; simp [addBindMountsToSpec]
  | cons hd rest ih =>
    intro ms hnd
    obtain ⟨dstPath, srcPath⟩ := hd
    have hnd1 : dstPath ∉ rest.map Prod.fst := by
      simp only [List.map_cons, List.nodup_cons] at hnd
      exact hnd.1
    have hnd2 : (rest.map Prod.fst).Nodup := by
      simp only [List.map_cons, List.nodup_cons] at hnd
      exact hnd.2
    simp only [addBindMountsToSpec]
    by_cases hex : MountExists ms dstPath
    · rw [if_neg (by simp [hex])]
      rw [ih ms hnd2]
      simp [List.filter_cons, hex]
    · rw [if_pos (by simp [hex])]
      rw [ih _ hnd2]
      have hinv : ∀ p ∈ rest,
          (!MountExists (ms ++ [(⟨"nullfs", srcPath, dstPath, []⟩ : SpecMount)]) p.1)
            = !MountExists ms p.1 := by
        intro p hp
        rw [mountExists_append]
        have hne : p.1 ≠ dstPath := by
          intro he
          exact hnd1 (he ▸ List.mem_map_of_mem Prod.fst hp)
        have hne2 : dstPath ≠ p.1 := fun he => hne he.symm
        simp [hne2]
      have hinv2 : ∀ p ∈ rest,
          MountExists (ms ++ [(⟨"nullfs", srcPath, dstPath, []⟩ : SpecMount)]) p.1
            = MountExists ms p.1 := by
        intro p hp
        have := hinv p hp
        cases h1 : MountExists (ms ++ [(⟨"nullfs", srcPath, dstPath, []⟩ : SpecMount)]) p.1 <;>
          cases h2 : MountExists ms p.1 <;> rw [h1, h2] at this <;> simp_all
      rw [Prod.mk.injEq]
      constructor
      · rw [filter_ext _ _ rest hinv]
        simp [List.filter_cons, hex]
      · rw [filter_ext _ _ rest hinv2]
        simp [List.filter_cons, hex]

theorem bmLookup_set (m : BindMap) (k v d : String) :
    bmLookup (bmSet m k v) d = if k = d then some v else bmLookup m d := by
  by_cases h : k = d
  · simp [bmSet, bmLookup, h]
  · simp only [bmSet, bmLookup, if_neg h]
    induction m with
    | nil => simp [bmRemoveKey, bmLookup]
    | cons p rest ih =>
      obtain ⟨k0, v0⟩ := p
      by_cases hk : k0 = k
      · subst hk
        simp [bmRemoveKey, bmLookup, h, ih]
      · simp only [bmRemoveKey, if_neg hk, bmLookup]
        by_cases hd : k0 = d <;> simp [hd, ih]

theorem bmLookup_assign (st : BMState) (k v d : String) :
    bmLookup (bmAssign st k v).map d = if k = d then some v else bmLookup st.map d := by
  simp [bmAssign, bmLookup_set]

theorem subscriptionsStep_preserves :
    ∀ (subs : List SubscriptionMount) (st : BMState) (d v : String),
      bmLookup st.map d = some v →
      bmLookup (subscriptionsStep st subs).map d = some v := by
  intro subs
  induction subs with
  | nil => intro st d v h; exact h
  | cons m rest ih =>
    intro st d v h
    simp only [subscriptionsStep]
    cases hl : bmLookup st.map m.destination with
    | none =>
      refine ih _ d v ?_
      rw [bmLookup_assign]
      have hne : m.destination ≠ d := by
        intro he; rw [he, h] at hl; cases hl
      rw [if_neg hne]
      exact h
    | some _ => exact ih _ d v h

theorem notifySocketStep_preserves (st : BMState) (notifyDir d v : String)
    (h : bmLookup st.map d = some v) :
    bmLookup (notifySocketStep st notifyDir).map d = some v := by
  unfold notifySocketStep
  cases hl : bmLookup st.map "/run/notify" with
  | some _ => exact h
  | none =>
    rw [bmLookup_assign]
    have hne : "/run/notify" ≠ d := by
      intro he; rw [he, h] at hl; cases hl
    rw [if_neg hne]
    exact h

theorem localtimePhase_preserves (cfg : BindMountsConfig) (env : BindMountsEnv)
    (st st2 : BMState) (d v : String)
    (hrun : localtimePhase cfg env st = .ok st2)
    (h : bmLookup st.map d = some v) :
    bmLookup st2.map d = some v := by
  by_cases htz : cfg.timezone = ""
  · simp [localtimePhase, htz] at hrun
    subst hrun
    exact h
  · cases htv : env.timezoneValid with
    | error e => simp [localtimePhase, htz, htv] at hrun
    | ok u =>
      cases hl : bmLookup st.map "/etc/localtime" with
      | some w =>
        simp [localtimePhase, htz, htv, hl] at hrun
        subst hrun
        exact h
      | none =>
        cases hzp : env.zoneCopyPath with
        | error e => simp [localtimePhase, htz, htv, hl, hzp] at hrun
        | ok p =>
          simp [localtimePhase, htz, htv, hl, hzp] at hrun
          subst hrun
          rw [bmLookup_assign]
          have hne : "/etc/localtime" ≠ d := by
            intro he; rw [he, h] at hl; cases hl
          rw [if_neg hne]
          exact h

theorem containerenvPhase_preserves (env : BindMountsEnv)
    (st st2 : BMState) (d v : String)
    (hrun : containerenvPhase env st = .ok st2)
    (h : bmLookup st.map d = some v) :
    bmLookup st2.map d = some v := by
  cases hl : bmLookup st.map "/run/.containerenv" with
  | some w =>
    simp [containerenvPhase, hl] at hrun
    subst hrun
    exact h
  | none =>
    cases hcp : env.containerenvPath with
    | error e => simp [containerenvPhase, hl, hcp] at hrun
    | ok p =>
      simp [containerenvPhase, hl, hcp] at hrun
      subst hrun
      rw [bmLookup_assign]
      have hne : "/run/.containerenv" ≠ d := by
        intro he; rw [he, h] at hl; cases hl
      rw [if_neg hne]
      exact h

/-- C6 amended: the claimed universal no-silent-shadow discipline does not
hold inside `makeBindMounts`.  What does hold: subscription, notify-socket,
localtime and containerenv entries are added only when the destination key
is absent (existing entries are preserved); but a secret mount writes its
destination unconditionally and without a conflict log, and the hosts /
resolv.conf entries written through `mountIntoRootDirs` are equally
unconditional, unlogged map writes (an existing entry is replaced, no
message emitted).  In the assembled specification, by contrast, an
accumulated bind mount is added only if its destination is not already
mounted, otherwise the existing mount wins and the conflict is logged. -/
theorem bind_mount_discipline_amended (st : BMState) (subs : List SubscriptionMount)
    (cfg : BindMountsConfig) (env : BindMountsEnv) (st2 st3 : BMState)
    (notifyDir secretsPath : String) (sec : ContainerSecret) (d v : String)
    (mountName mountPath : String)
    (ms : List SpecMount) (bm : BindMap)
    (hnd : (bm.map Prod.fst).Nodup)
    (hv : bmLookup st.map d = some v)
    (hlt : localtimePhase cfg env st = .ok st2)
    (hce : containerenvPhase env st = .ok st3) :
    bmLookup (subscriptionsStep st subs).map d = some v
    ∧ bmLookup (notifySocketStep st notifyDir).map d = some v
    ∧ bmLookup st2.map d = some v
    ∧ bmLookup st3.map d = some v
    ∧ bmLookup (secretsStep secretsPath st [sec]).map (secretDest sec)
        = some (joinPath secretsPath sec.name)
    ∧ (secretsStep secretsPath st [sec]).events
        = st.events ++ [.assigned (secretDest sec) (joinPath secretsPath sec.name)
            (bmLookup st.map (secretDest sec)) false]
    ∧ bmLookup (mountIntoRootDirs [] st mountName mountPath).map mountName = some mountPath
    ∧ (mountIntoRootDirs [] st mountName mountPath).events
        = st.events ++ [.assigned mountName mountPath (bmLookup st.map mountName) false]
    ∧ addBindMountsToSpec ms bm
        = (ms ++ (bm.filter fun p => !MountExists ms p.1).map
              (fun p => ⟨"nullfs", p.2, p.1, []⟩),
           (bm.filter fun p => MountExists ms p.1).map fun p => conflictMsg p.1) := by
  refine ⟨subscriptionsStep_preserves subs st d v hv,
    notifySocketStep_preserves st notifyDir d v hv,
    localtimePhase_preserves cfg env st st2 d v hlt hv,
    containerenvPhase_preserves env st st3 d v hce hv,
    ?_, ?_, ?_, ?_, addBindMountsToSpec_closed_form bm ms hnd⟩
  · simp [secretsStep, bmLookup_assign]
  · simp [secretsStep, bmAssign]
  · simp [mountIntoRootDirs, bmLookup_assign]
  · simp [mountIntoRootDirs, bmAssign]

theorem bind_mount_discipline_amended_witness :
    bmLookup (subscriptionsStep ⟨[("/etc/hosts", "/run/ctr/hosts")], []⟩
        [⟨"/etc/hosts", "/sub/hosts"⟩]).map "/etc/hosts" = some "/run/ctr/hosts"
    ∧ bmLookup (secretsStep "/var/lib/secrets" ⟨[("/etc/hosts", "/run/ctr/hosts")], []⟩
        [⟨"mysecret", ""⟩]).map (secretDest ⟨"mysecret", ""⟩)
        = some (joinPath "/var/lib/secrets" "mysecret")
    ∧ bmLookup (mountIntoRootDirs [] ⟨[("/etc/hosts", "/run/ctr/hosts")], []⟩
        "/etc/hosts" "/dep/hosts").map "/etc/hosts" = some "/dep/hosts"
    ∧ (mountIntoRootDirs [] ⟨[("/etc/hosts", "/run/ctr/hosts")], []⟩
        "/etc/hosts" "/dep/hosts").events
        = [.assigned "/etc/hosts" "/dep/hosts" (some "/run/ctr/hosts") false]
    ∧ addBindMountsToSpec [⟨"nullfs", "/a", "/etc/hosts", []⟩]
        [("/etc/hosts", "/b"), ("/etc/resolv.conf", "/c")]
        = ([⟨"nullfs", "/a", "/etc/hosts", []⟩, ⟨"nullfs", "/c", "/etc/resolv.conf", []⟩],
           [conflictMsg "/etc/hosts"]) := by
  have h := bind_mount_discipline_amended
    ⟨[("/etc/hosts", "/run/ctr/hosts")], []⟩
    [⟨"/etc/hosts", "/sub/hosts"⟩]
    bmCexConfig bmCexEnv
    ⟨[("/etc/hosts", "/run/ctr/hosts")], []⟩
    ⟨[("/run/.containerenv", "/run/ctr/.containerenv"), ("/etc/hosts", "/run/ctr/hosts")], [.assigned "/run/.containerenv" "/run/ctr/.containerenv" none false]⟩
    "/run/ctr/notify" "/var/lib/secrets" ⟨"mysecret", ""⟩
    "/etc/hosts" "/run/ctr/hosts"
    "/etc/hosts" "/dep/hosts"
    [⟨"nullfs", "/a", "/etc/hosts", []⟩]
    [("/etc/hosts", "/b"), ("/etc/resolv.conf", "/c")]
    (by decide) (by decide) (by decide) (by decide)
  refine ⟨h.1, h.2.2.2.2.1, h.2.2.2.2.2.2.1, ?_, ?_⟩
  · have h8 := h.2.2.2.2.2.2.2.1
    rw [h8]
    decide
  · have h9 := h.2.2.2.2.2.2.2.2
    rw [h9]
    decide

/-! ## `prepare` (libpod, unnamed/part_001) -/

structure NetInterface where
  macAddress : String
  subnets : List String
  deriving DecidableEq

structure StatusBlock where
  interfaces : List (String × NetInterface)
  deriving DecidableEq

/-- Network status: per-network name → status block. -/
abbrev NetStatus := List (String × StatusBlock)

structure PrepareConfig where
  createNetNS : Bool
  postConfigureNetNS : Bool
  deriving DecidableEq

structure PrepareState where
  networkJail : String
  networkStatus : NetStatus
  mounted : Bool
  mountpoint : String
  deriving DecidableEq

/-- Outcomes of the external calls made during preparation. -/
structure PrepareEnv where
  createNetNS : Except GoError (String × NetStatus)
  mountStorage : Except GoError String
  save : Except GoError Unit

/-- `prepare`: the two tasks run concurrently but write disjoint state fields
under one mutex and are joined before any error handling, so their combined
effect equals this sequential composition.  After the join only
`mountStorageErr` is copied into `createErr`; `createNetNSErr` is read by
nothing.  On a nil `createErr` the state is saved and nil returned. -/
def prepare (cfg : PrepareConfig) (env : PrepareEnv) (st : PrepareState) :
    Except GoError Unit × PrepareState :=
  -- network-namespace task
  let netTask :=
    if cfg.createNetNS ∧ st.networkJail = "" ∧ ¬cfg.postConfigureNetNS then
      match env.createNetNS with
      | .error e => ((some e : Option GoError), st)
      | .ok (jailName, networkStatus) =>
        (none, { st with networkJail := jailName, networkStatus := networkStatus })
    else (none, st)
  let createNetNSErr := netTask.1
  let st := netTask.2
  -- storage-mount task
  let storageTask :=
    match env.mountStorage with
    | .error e => ((some e : Option GoError), st)
    | .ok mountPoint => (none, { st with mounted := true, mountpoint := mountPoint })
  let mountStorageErr := storageTask.1
  let st := storageTask.2
  -- join: createErr is never set from createNetNSErr, only from mountStorageErr
  let _ := createNetNSErr
  let createErr : Option GoError := none
  let createErr :=
    match mountStorageErr with
    | some e => some e
    | none => createErr
  match createErr with
  | some e => (.error e, st)
  | none =>
    match env.save with
    | .error e => (.error e, st)
    | .ok _ => (.ok (), st)

def prepCexConfig : PrepareConfig := ⟨true, false⟩

def prepCexEnv : PrepareEnv :=
  { createNetNS := .error (.msg "cannot create network jail")
  , mountStorage := .ok "/var/mnt/ctr-root"
  , save := .ok () }

/-- C1 evaluated at the failing input: network-namespace creation fails while
storage mounting succeeds, yet `prepare` returns success and persists the
state — the network error is never consulted after the join (the storage
result is indeed left intact).  With the failures swapped, the storage error
is surfaced. -/
theorem prepare_network_failure_not_surfaced :
    prepare prepCexConfig prepCexEnv ⟨"", [], false, ""⟩
      = (.ok (), ⟨"", [], true, "/var/mnt/ctr-root"⟩)
    ∧ prepare prepCexConfig
        { createNetNS := .ok ("jail0", []), mountStorage := .error (.msg "mount failed")
        , save := .ok () } ⟨"", [], false, ""⟩
      = (.error (.msg "mount failed"), ⟨"jail0", [], false, ""⟩) := by
  exact ⟨rfl, rfl⟩

/-! ## `checkpoint` (libpod, unnamed/part_001) -/

inductive CtrStatus where
  | configured
  | created
  | running
  | stopped
  | paused
  | exited
  | removing
  | stopping
  deriving DecidableEq

structure CheckpointOptions where
  keep : Bool
  keepRunning : Bool
  targetFile : String
  preCheckPoint : Bool
  withPrevious : Bool
  printStats : Bool
  deriving DecidableEq

structure CRIUStats where
  freezingTime : Nat
  frozenTime : Nat
  memdumpTime : Nat
  memwriteTime : Nat
  pagesScanned : Nat
  pagesWritten : Nat
  deriving DecidableEq

structure CkptConfig where
  autoRemove : Bool
  deriving DecidableEq

structure CkptState where
  status : CtrStatus
  checkpointed : Bool
  restored : Bool
  checkpointLog : String
  checkpointPath : String
  deriving DecidableEq

/-- Outcomes of the external calls `checkpoint` performs. -/
structure CkptEnv where
  criuSupported : Bool
  runtimeSupportsCheckpoint : Bool
  createDumpLog : Except GoError Unit
  bundlePath : String
  checkpointDirPath : String
  runtimeCheckpoint : Except GoError Int
  writeNetStatus : Except GoError Unit
  symlinkParent : Except GoError Unit
  exportArchive : Except GoError Unit
  cleanup : Except GoError Unit
  dumpStats : Except GoError CRIUStats
  save : Except GoError Unit

structure CkptOutcome where
  result : Except GoError (Option CRIUStats × Int)
  state : CkptState
  dumpInvoked : Bool
  cleanupInvoked : Bool
  deriving DecidableEq

/-- `checkpointRestoreSupported`: the external dump engine (CRIU) and the
OCI runtime must both report checkpoint capability. -/
def checkpointRestoreSupported (criuSupported rtSupports : Bool) : Except GoError Unit :=
  if ¬criuSupported then .error (.msg "checkpoint/restore requires at least CRIU")
  else if ¬rtSupports then
    .error (.msg "configured runtime does not support checkpoint/restore")
  else .ok ()

/-- Statistics parsing, checkpoint-file cleanup and the final save. -/
def checkpointFinish (opts : CheckpointOptions) (env : CkptEnv) (st : CkptState)
    (duration : Int) (dumpInvoked cleanupInvoked : Bool) : CkptOutcome :=
  let statsRes : Except GoError (Option CRIUStats) :=
    if opts.printStats then
      match env.dumpStats with
      | .error e => .error (.wrap "Displaying checkpointing statistics not possible" e)
      | .ok s => .ok (some s)
    else .ok none
  match statsRes with
  | .error e => ⟨.error e, st, dumpInvoked, cleanupInvoked⟩
  | .ok stats =>
    let st := if ¬opts.keep ∧ ¬opts.preCheckPoint then { st with checkpointLog := "" } else st
    match env.save with
    | .error e => ⟨.error e, st, dumpInvoked, cleanupInvoked⟩
    | .ok _ => ⟨.ok (stats, duration), st, dumpInvoked, cleanupInvoked⟩

/-- `checkpoint`. -/
def checkpoint (cfg : CkptConfig) (opts : CheckpointOptions) (env : CkptEnv)
    (st : CkptState) : CkptOutcome :=
  match checkpointRestoreSupported env.criuSupported env.runtimeSupportsCheckpoint with
  | .error e => ⟨.error e, st, false, false⟩
  | .ok _ =>
    if st.status ≠ .running then
      ⟨.error (.msg "is not running, cannot checkpoint"), st, false, false⟩
    else if cfg.autoRemove ∧ opts.targetFile = "" then
      ⟨.error (.msg "cannot checkpoint containers started with --rm unless --export is used"),
        st, false, false⟩
    else
      match env.createDumpLog with
      | .error e => ⟨.error e, st, false, false⟩
      | .ok _ =>
        let st := { st with checkpointLog := joinPath env.bundlePath "dump.log"
                          , checkpointPath := env.checkpointDirPath }
        match env.runtimeCheckpoint with
        | .error e => ⟨.error e, st, true, false⟩
        | .ok duration =>
          match env.writeNetStatus with
          | .error e => ⟨.error e, st, true, false⟩
          | .ok _ =>
            match (if opts.withPrevious then env.symlinkParent else .ok ()) with
            | .error e => ⟨.error e, st, true, false⟩
            | .ok _ =>
              match (if opts.targetFile ≠ "" then env.exportArchive else .ok ()) with
              | .error e => ⟨.error e, st, true, false⟩
              | .ok _ =>
                if ¬opts.keepRunning ∧ ¬opts.preCheckPoint then
                  let st := { st with status := .stopped, checkpointed := true
                                    , restored := false }
                  match env.cleanup with
                  | .error e => ⟨.error e, st, true, true⟩
                  | .ok _ => checkpointFinish opts env st duration true true
                else
                  checkpointFinish opts env st duration true false

theorem checkpointRestoreSupported_unsupported {a b : Bool} (h : ¬a = true ∨ ¬b = true) :
    ∃ e, checkpointRestoreSupported a b = .error e := by
  unfold checkpointRestoreSupported
  by_cases ha : a = true
  · rcases h with h | h
    · exact absurd ha h
    · exact ⟨.msg "configured runtime does not support checkpoint/restore",
        by rw [if_neg (by simp [ha]), if_pos h]⟩
  · exact ⟨.msg "checkpoint/restore requires at least CRIU", by rw [if_pos ha]⟩

theorem checkpointFinish_fields (opts : CheckpointOptions) (env : CkptEnv)
    (st : CkptState) (duration : Int) (di ci : Bool) :
    (checkpointFinish opts env st duration di ci).state.status = st.status
    ∧ (checkpointFinish opts env st duration di ci).state.checkpointed = st.checkpointed
    ∧ (checkpointFinish opts env st duration di ci).cleanupInvoked = ci
    ∧ (checkpointFinish opts env st duration di ci).dumpInvoked = di := by
  unfold checkpointFinish
  cases hds : env.dumpStats <;> cases hsv : env.save <;>
    by_cases hps : opts.printStats = true <;>
      simp [hds, hsv, hps, apply_ite]

/-- C2, guard half: checkpoint fails without invoking the dump whenever CRIU
or the runtime lack checkpoint capability, the container is not Running, or
it is auto-removed without an export target. -/
theorem checkpoint_guards (cfg : CkptConfig) (opts : CheckpointOptions)
    (env : CkptEnv) (st : CkptState)
    (h : ¬env.criuSupported = true ∨ ¬env.runtimeSupportsCheckpoint = true
      ∨ st.status ≠ .running ∨ (cfg.autoRemove = true ∧ opts.targetFile = "")) :
    (∀ r, (checkpoint cfg opts env st).result ≠ .ok r)
    ∧ (checkpoint cfg opts env st).dumpInvoked = false := by
  unfold checkpoint
  rcases h with h | h | h | h
  · obtain ⟨e, he⟩ := checkpointRestoreSupported_unsupported (Or.inl h)
    rw [he]
    exact ⟨fun r hr => by simp at hr, rfl⟩
  · obtain ⟨e, he⟩ := checkpointRestoreSupported_unsupported (Or.inr h)
    rw [he]
    exact ⟨fun r hr => by simp at hr, rfl⟩
  · cases hcs : checkpointRestoreSupported env.criuSupported env.runtimeSupportsCheckpoint with
    | error e => exact ⟨fun r hr => by simp at hr, rfl⟩
    | ok u =>
      rw [if_pos h]
      exact ⟨fun r hr => by simp at hr, rfl⟩
  · cases hcs : checkpointRestoreSupported env.criuSupported env.runtimeSupportsCheckpoint with
    | error e => exact ⟨fun r hr => by simp at hr, rfl⟩
    | ok u =>
      by_cases hst : st.status ≠ .running
      · rw [if_pos hst]
        exact ⟨fun r hr => by simp at hr, rfl⟩
      · rw [if_neg hst, if_pos h]
        exact ⟨fun r hr => by simp at hr, rfl⟩

/-- C2, success half (amended): a successful checkpoint in which neither
keep-running nor a pre-checkpoint dump was requested transitions
Running → Stopped with Checkpointed set and invokes storage/network
cleanup. -/
theorem checkpoint_success_transition (cfg : CkptConfig) (opts : CheckpointOptions)
    (env : CkptEnv) (st : CkptState) (r : Option CRIUStats × Int)
    (hr : (checkpoint cfg opts env st).result = .ok r)
    (hkr : opts.keepRunning = false) (hpc : opts.preCheckPoint = false) :
    st.status = .running
    ∧ (checkpoint cfg opts env st).state.status = .stopped
    ∧ (checkpoint cfg opts env st).state.checkpointed = true
    ∧ (checkpoint cfg opts env st).cleanupInvoked = true := by
  unfold checkpoint at hr
  cases hcs : checkpointRestoreSupported env.criuSupported env.runtimeSupportsCheckpoint with
  | error e => simp [hcs] at hr
  | ok u =>
  by_cases hst : st.status ≠ .running
  · simp [hcs, hst] at hr
  · by_cases har : cfg.autoRemove = true ∧ opts.targetFile = ""
    · simp [hcs, hst, har] at hr
    · cases hdl : env.createDumpLog with
      | error e => simp [hcs, hst, har, hdl] at hr
      | ok u2 =>
      cases hrc : env.runtimeCheckpoint with
      | error e => simp [hcs, hst, har, hdl, hrc] at hr
      | ok duration =>
      cases hwn : env.writeNetStatus with
      | error e => simp [hcs, hst, har, hdl, hrc, hwn] at hr
      | ok u3 =>
      cases hsy : (if opts.withPrevious then env.symlinkParent else Except.ok ()) with
      | error e => simp [hcs, hst, har, hdl, hrc, hwn, hsy] at hr
      | ok u4 =>
      cases hex : (if opts.targetFile ≠ "" then env.exportArchive else Except.ok ()) with
      | error e => simp [hcs, hst, har, hdl, hrc, hwn, hsy, hex] at hr
      | ok u5 =>
      cases hcl : env.cleanup with
      | error e => simp [hcs, hst, har, hdl, hrc, hwn, hsy, hex, hkr, hpc, hcl] at hr
      | ok u6 =>
      have heq : checkpoint cfg opts env st
          = checkpointFinish opts env
              ⟨.stopped, true, false, joinPath env.bundlePath "dump.log",
                env.checkpointDirPath⟩ duration true true := by
        simp [checkpoint, hcs, hst, har, hdl, hrc, hwn, hsy, hex, hkr, hpc, hcl]
      have hf := checkpointFinish_fields opts env
        ⟨.stopped, true, false, joinPath env.bundlePath "dump.log",
          env.checkpointDirPath⟩ duration true true
      rw [heq]
      exact ⟨not_not.mp hst, hf.1, hf.2.1, hf.2.2.1⟩

/-- C2 (amended): the guard conditions produce an error with no dump, and a
successful checkpoint with neither keep-running nor pre-checkpoint requested
transitions Running → Stopped with Checkpointed=true and cleanup invoked. -/
theorem checkpoint_state_machine (cfg : CkptConfig) (opts : CheckpointOptions)
    (env : CkptEnv) (st : CkptState) :
    ((¬env.criuSupported = true ∨ ¬env.runtimeSupportsCheckpoint = true
        ∨ st.status ≠ .running ∨ (cfg.autoRemove = true ∧ opts.targetFile = "")) →
      (∀ r, (checkpoint cfg opts env st).result ≠ .ok r)
      ∧ (checkpoint cfg opts env st).dumpInvoked = false)
    ∧ (∀ r, (checkpoint cfg opts env st).result = .ok r →
        opts.keepRunning = false → opts.preCheckPoint = false →
        st.status = .running
        ∧ (checkpoint cfg opts env st).state.status = .stopped
        ∧ (checkpoint cfg opts env st).state.checkpointed = true
        ∧ (checkpoint cfg opts env st).cleanupInvoked = true) :=
  ⟨fun h => checkpoint_guards cfg opts env st h,
   fun r hr hkr hpc => checkpoint_success_transition cfg opts env st r hr hkr hpc⟩

def ckOkEnv : CkptEnv :=
  { criuSupported := true
  , runtimeSupportsCheckpoint := true
  , createDumpLog := .ok ()
  , bundlePath := "/bundle"
  , checkpointDirPath := "/bundle/checkpoint"
  , runtimeCheckpoint := .ok 5
  , writeNetStatus := .ok ()
  , symlinkParent := .ok ()
  , exportArchive := .ok ()
  , cleanup := .ok ()
  , dumpStats := .ok ⟨1, 2, 3, 4, 5, 6⟩
  , save := .ok () }

theorem checkpoint_state_machine_witness :
    ((checkpoint ⟨true⟩ ⟨true, false, "", false, false, false⟩ ckOkEnv
        ⟨.running, false, false, "", ""⟩).result = .ok ((none : Option CRIUStats), 5) →
      False)
    ∧ (checkpoint ⟨false⟩ ⟨true, false, "", false, false, false⟩ ckOkEnv
        ⟨.running, false, false, "", ""⟩).state.status = .stopped
    ∧ (checkpoint ⟨false⟩ ⟨true, false, "", false, false, false⟩ ckOkEnv
        ⟨.running, false, false, "", ""⟩).cleanupInvoked = true := by
  have h1 := (checkpoint_state_machine ⟨true⟩ ⟨true, false, "", false, false, false⟩
    ckOkEnv ⟨.running, false, false, "", ""⟩).1
    (Or.inr (Or.inr (Or.inr ⟨rfl, rfl⟩)))
  have h2 := (checkpoint_state_machine ⟨false⟩ ⟨true, false, "", false, false, false⟩
    ckOkEnv ⟨.running, false, false, "", ""⟩).2 ((none : Option CRIUStats), 5)
    (by decide) rfl rfl
  exact ⟨fun hc => h1.1 _ hc, h2.2.1, h2.2.2.1⟩

/-- C2 fails as stated: a pre-checkpoint dump with keep-running NOT requested
succeeds, yet the state stays Running, Checkpointed stays false and no
cleanup happens — the transition is skipped for pre-checkpoints too, not
only for keep-running. -/
theorem checkpoint_precheckpoint_counterexample :
    checkpoint ⟨false⟩ ⟨true, false, "", true, false, false⟩ ckOkEnv
        ⟨.running, false, false, "", ""⟩
      = ⟨.ok (none, 5),
         ⟨.running, false, false, "/bundle/dump.log", "/bundle/checkpoint"⟩,
         true, false⟩ := by
  decide

/-! ## `restore` (libpod, unnamed/part_001) -/

def lookupAssoc {α : Type} : List (String × α) → String → Option α
  | [], _ => none
  | (k0, v) :: rest, k => if k0 = k then some v else lookupAssoc rest k

structure PerNetworkOptions where
  interfaceName : String
  staticMAC : Option String
  staticIPs : List String
  deriving DecidableEq

structure RestoreOptions where
  pod : String
  targetFile : String
  importPrevious : String
  name : String
  ignoreStaticIP : Bool
  ignoreStaticMAC : Bool
  ignoreVolumes : Bool
  ignoreRootfs : Bool
  keep : Bool
  printStats : Bool
  deriving DecidableEq

structure RestoreState where
  status : CtrStatus
  checkpointed : Bool
  restored : Bool
  restoreLog : String
  checkpointPath : String
  perNetworkOpts : Option (List (String × PerNetworkOptions))
  deriving DecidableEq

/-- Outcomes of the external calls `restore` performs.  `criuSupported` is
the result of `CheckForCriu` at the selected minimum version (the pod
version when restoring into a pod, else the plain minimum). -/
structure RestoreEnv where
  criuSupported : Bool
  runtimeSupportsCheckpoint : Bool
  runtimeSupportsPodRestore : Bool
  importPre : Except GoError Unit
  importCk : Except GoError Unit
  inventoryExists : Bool
  createRestoreLog : Except GoError Unit
  bundlePath : String
  checkpointDirPath : String
  readNetStatus : Except GoError NetStatus
  containerNetworks : Except GoError (List (String × PerNetworkOptions))
  prepareCtr : Except GoError Unit
  readSpecConfig : Except GoError Unit
  podSetup : Except GoError Unit
  makeCtrBindMounts : Except GoError Unit
  removeConmonFiles : Except GoError Unit
  saveSpec : Except GoError Unit
  volumesRestore : Except GoError Unit
  applyRootFsDiff : Except GoError Unit
  removeDeletedFiles : Except GoError Unit
  runtimeCreate : Except GoError Int
  restoreStats : Except GoError CRIUStats
  save : Except GoError Unit

structure RestoreOutcome where
  result : Except GoError (Option CRIUStats × Int)
  state : RestoreState
  restorePerformed : Bool
  deriving DecidableEq

/-- `c.ensureState(states...)`. -/
def ensureState (status : CtrStatus) (allowed : List CtrStatus) : Bool :=
  decide (status ∈ allowed)

/-- The per-network transformation of the snapshot-restore loop: MAC and IPs
are cleared, then refilled from the first interface of the network's status
block (the MAC guarded — as in the source — by `IgnoreStaticIP`). -/
def restorePerNetOpts (opts : RestoreOptions) (netStatus : NetStatus)
    (network : String) (perNetOpts0 : PerNetworkOptions) : PerNetworkOptions :=
  let pno := { perNetOpts0 with staticMAC := none, staticIPs := ([] : List String) }
  match lookupAssoc netStatus network with
  | none => pno
  | some block =>
    match block.interfaces with
    | [] => pno
    | (iname, netInt) :: _ =>
      let pno := { pno with interfaceName := iname }
      let pno :=
        if ¬opts.ignoreStaticIP then { pno with staticMAC := some netInt.macAddress }
        else pno
      let pno :=
        if ¬opts.ignoreStaticIP then { pno with staticIPs := pno.staticIPs ++ netInt.subnets }
        else pno
      pno

def restoreNetworkOpts (opts : RestoreOptions) (netStatus : NetStatus)
    (networkOpts : List (String × PerNetworkOptions)) :
    List (String × PerNetworkOptions) :=
  networkOpts.map fun p => (p.1, restorePerNetOpts opts netStatus p.1 p.2)

/-- Everything after the network-status section: preparation, spec
reconstruction, bind mounts, volume content, rootfs diff, process
re-creation, statistics, the state transition to Running and the final
save. -/
def restoreTail (opts : RestoreOptions) (env : RestoreEnv) (st : RestoreState) :
    RestoreOutcome :=
  match env.prepareCtr with
  | .error e => ⟨.error e, st, false⟩
  | .ok _ =>
  match env.readSpecConfig with
  | .error e => ⟨.error e, st, false⟩
  | .ok _ =>
  match (if opts.pod ≠ "" then env.podSetup else Except.ok ()) with
  | .error e => ⟨.error e, st, false⟩
  | .ok _ =>
  match env.makeCtrBindMounts with
  | .error e => ⟨.error e, st, false⟩
  | .ok _ =>
  match env.removeConmonFiles with
  | .error e => ⟨.error e, st, false⟩
  | .ok _ =>
  match env.saveSpec with
  | .error e => ⟨.error e, st, false⟩
  | .ok _ =>
  match (if opts.targetFile ≠ "" ∧ ¬opts.ignoreVolumes then env.volumesRestore
         else Except.ok ()) with
  | .error e => ⟨.error e, st, false⟩
  | .ok _ =>
  match (if ¬opts.ignoreRootfs then env.applyRootFsDiff else Except.ok ()) with
  | .error e => ⟨.error e, st, false⟩
  | .ok _ =>
  match (if ¬opts.ignoreRootfs then env.removeDeletedFiles else Except.ok ()) with
  | .error e => ⟨.error e, st, false⟩
  | .ok _ =>
  match env.runtimeCreate with
  | .error e => ⟨.error e, st, true⟩
  | .ok duration =>
    match (if opts.printStats then
             match env.restoreStats with
             | .error e => .error (.wrap "Displaying restore statistics not possible" e)
             | .ok s => .ok (some s)
           else .ok none : Except GoError (Option CRIUStats)) with
    | .error e => ⟨.error e, st, true⟩
    | .ok stats =>
      let st := { st with status := .running, checkpointed := false, restored := true }
      let st := if ¬opts.keep then { st with checkpointPath := "", restoreLog := "" } else st
      match env.save with
      | .error e => ⟨.error e, st, true⟩
      | .ok _ => ⟨.ok (stats, duration), st, true⟩

/-- Applying a successfully read network-status snapshot: MAC/IPs are
restored only when no new name was requested and not both ignore flags are
set. -/
def restoreNetworkApply (opts : RestoreOptions) (env : RestoreEnv)
    (st : RestoreState) (netStatus : NetStatus) : RestoreOutcome :=
  if opts.name = "" ∧ (¬opts.ignoreStaticIP ∨ ¬opts.ignoreStaticMAC) then
    match env.containerNetworks with
    | .error e => ⟨.error e, st, false⟩
    | .ok networkOpts =>
      restoreTail opts env
        { st with perNetworkOpts := some (restoreNetworkOpts opts netStatus networkOpts) }
  else restoreTail opts env st

/-- The network-status section: a read failure is only logged. -/
def restoreNetworkPhase (opts : RestoreOptions) (env : RestoreEnv)
    (st : RestoreState) : RestoreOutcome :=
  match env.readNetStatus with
  | .error _ => restoreTail opts env st
  | .ok netStatus => restoreNetworkApply opts env st netStatus

/-- `restore`. -/
def restore (opts : RestoreOptions) (env : RestoreEnv) (st : RestoreState) :
    RestoreOutcome :=
  match checkpointRestoreSupported env.criuSupported env.runtimeSupportsCheckpoint with
  | .error e => ⟨.error e, st, false⟩
  | .ok _ =>
    if opts.pod ≠ "" ∧ ¬env.runtimeSupportsPodRestore then
      ⟨.error (.msg "runtime does not support pod restore"), st, false⟩
    else if ¬ensureState st.status [.configured, .exited] then
      ⟨.error (.msg "container is running or paused, cannot restore"), st, false⟩
    else
      match (if opts.importPrevious ≠ "" then env.importPre else Except.ok ()) with
      | .error e => ⟨.error e, st, false⟩
      | .ok _ =>
        match (if opts.targetFile ≠ "" then env.importCk else Except.ok ()) with
        | .error e => ⟨.error e, st, false⟩
        | .ok _ =>
          if ¬env.inventoryExists then
            ⟨.error (.msg "a complete checkpoint for this container cannot be found, cannot restore"),
              st, false⟩
          else
            match env.createRestoreLog with
            | .error e => ⟨.error e, st, false⟩
            | .ok _ =>
              restoreNetworkPhase opts env
                { st with restoreLog := joinPath env.bundlePath "restore.log"
                        , checkpointPath := env.checkpointDirPath }

theorem restoreTail_pno (opts : RestoreOptions) (env : RestoreEnv) (st : RestoreState) :
    (restoreTail opts env st).state.perNetworkOpts = st.perNetworkOpts := by
  unfold restoreTail
  repeat' split
  all_goals rfl

theorem restoreTail_ok (opts : RestoreOptions) (env : RestoreEnv) (st : RestoreState)
    (r : Option CRIUStats × Int)
    (hr : (restoreTail opts env st).result = .ok r) :
    (restoreTail opts env st).state.status = .running
    ∧ (restoreTail opts env st).state.restored = true
    ∧ (restoreTail opts env st).state.checkpointed = false := by
  unfold restoreTail at hr ⊢
  repeat' split at hr
  all_goals simp_all [apply_ite]

theorem restore_invalid_state (opts : RestoreOptions) (env : RestoreEnv)
    (st : RestoreState)
    (hst : ¬(st.status = .configured ∨ st.status = .exited)) :
    (∀ r, (restore opts env st).result ≠ .ok r)
    ∧ (restore opts env st).restorePerformed = false := by
  have hens : ensureState st.status [.configured, .exited] = false := by
    apply decide_eq_false
    intro hm
    apply hst
    simpa using hm
  unfold restore
  cases hcs : checkpointRestoreSupported env.criuSupported env.runtimeSupportsCheckpoint with
  | error e => exact ⟨fun r hr => by simp at hr, rfl⟩
  | ok u =>
    by_cases hpod : opts.pod ≠ "" ∧ ¬env.runtimeSupportsPodRestore = true
    · rw [if_pos hpod]
      exact ⟨fun r hr => by simp at hr, rfl⟩
    · rw [if_neg hpod, if_pos (by simp [hens])]
      exact ⟨fun r hr => by simp at hr, rfl⟩

theorem restore_no_inventory (opts : RestoreOptions) (env : RestoreEnv)
    (st : RestoreState) (hinv : env.inventoryExists = false) :
    (∀ r, (restore opts env st).result ≠ .ok r)
    ∧ (restore opts env st).restorePerformed = false := by
  unfold restore
  cases hcs : checkpointRestoreSupported env.criuSupported env.runtimeSupportsCheckpoint with
  | error e => exact ⟨fun r hr => by simp at hr, rfl⟩
  | ok u =>
    by_cases hpod : opts.pod ≠ "" ∧ ¬env.runtimeSupportsPodRestore = true
    · rw [if_pos hpod]
      exact ⟨fun r hr => by simp at hr, rfl⟩
    · rw [if_neg hpod]
      by_cases hens : ¬ensureState st.status [.configured, .exited] = true
      · rw [if_pos hens]
        exact ⟨fun r hr => by simp at hr, rfl⟩
      · rw [if_neg hens]
        cases hip : (if opts.importPrevious ≠ "" then env.importPre else Except.ok ()) with
        | error e => exact ⟨fun r hr => by simp at hr, rfl⟩
        | ok u2 =>
          cases hic : (if opts.targetFile ≠ "" then env.importCk else Except.ok ()) with
          | error e => exact ⟨fun r hr => by simp at hr, rfl⟩
          | ok u3 =>
            rw [if_pos (by simp [hinv])]
            exact ⟨fun r hr => by simp at hr, rfl⟩

theorem restoreNetworkPhase_ok (opts : RestoreOptions) (env : RestoreEnv)
    (st : RestoreState) (r : Option CRIUStats × Int)
    (hr : (restoreNetworkPhase opts env st).result = .ok r) :
    (restoreNetworkPhase opts env st).state.status = .running
    ∧ (restoreNetworkPhase opts env st).state.restored = true
    ∧ (restoreNetworkPhase opts env st).state.checkpointed = false := by
  cases hrn : env.readNetStatus with
  | error e =>
    have heq : restoreNetworkPhase opts env st = restoreTail opts env st := by
      unfold restoreNetworkPhase; rw [hrn]
    rw [heq] at hr ⊢
    exact restoreTail_ok opts env st r hr
  | ok ns =>
    have heq : restoreNetworkPhase opts env st = restoreNetworkApply opts env st ns := by
      unfold restoreNetworkPhase; rw [hrn]
    rw [heq] at hr ⊢
    by_cases hc : opts.name = "" ∧ (¬opts.ignoreStaticIP = true ∨ ¬opts.ignoreStaticMAC = true)
    · cases hcn : env.containerNetworks with
      | error e =>
        have heq2 : restoreNetworkApply opts env st ns = ⟨.error e, st, false⟩ := by
          unfold restoreNetworkApply; rw [if_pos hc, hcn]
        rw [heq2] at hr
        simp at hr
      | ok networkOpts =>
        have heq2 : restoreNetworkApply opts env st ns
            = restoreTail opts env
                { st with perNetworkOpts := some (restoreNetworkOpts opts ns networkOpts) } := by
          unfold restoreNetworkApply; rw [if_pos hc, hcn]
        rw [heq2] at hr ⊢
        exact restoreTail_ok opts env _ r hr
    · have heq2 : restoreNetworkApply opts env st ns = restoreTail opts env st := by
        unfold restoreNetworkApply; rw [if_neg hc]
      rw [heq2] at hr ⊢
      exact restoreTail_ok opts env st r hr

/-- On the guard-passing path, `restore` reduces to the network phase run on
the state with the restore log and checkpoint path recorded. -/
theorem restore_eq_phase (opts : RestoreOptions) (env : RestoreEnv) (st : RestoreState)
    (hsup : checkpointRestoreSupported env.criuSupported env.runtimeSupportsCheckpoint
      = .ok ())
    (hpod : ¬(opts.pod ≠ "" ∧ ¬env.runtimeSupportsPodRestore = true))
    (hens : ensureState st.status [.configured, .exited] = true)
    (hip2 : (if opts.importPrevious ≠ "" then env.importPre else Except.ok ()) = .ok ())
    (hic : (if opts.targetFile ≠ "" then env.importCk else Except.ok ()) = .ok ())
    (hinv : env.inventoryExists = true)
    (hcr : env.createRestoreLog = .ok ()) :
    restore opts env st = restoreNetworkPhase opts env
      { st with restoreLog := joinPath env.bundlePath "restore.log"
              , checkpointPath := env.checkpointDirPath } := by
  unfold restore
  rw [hsup, if_neg hpod, if_neg (by simp [hens]), hip2, hic, if_neg (by simp [hinv]), hcr]

theorem restore_success (opts : RestoreOptions) (env : RestoreEnv)
    (st : RestoreState) (r : Option CRIUStats × Int)
    (hr : (restore opts env st).result = .ok r) :
    (restore opts env st).state.status = .running
    ∧ (restore opts env st).state.restored = true
    ∧ (restore opts env st).state.checkpointed = false := by
  cases hcs : checkpointRestoreSupported env.criuSupported env.runtimeSupportsCheckpoint with
  | error e =>
    have heq : restore opts env st = ⟨.error e, st, false⟩ := by
      unfold restore; rw [hcs]
    rw [heq] at hr
    simp at hr
  | ok u =>
  cases u
  by_cases hpod : opts.pod ≠ "" ∧ ¬env.runtimeSupportsPodRestore = true
  · have heq : restore opts env st
        = ⟨.error (.msg "runtime does not support pod restore"), st, false⟩ := by
      unfold restore; rw [hcs, if_pos hpod]
    rw [heq] at hr
    simp at hr
  · by_cases hens : ensureState st.status [.configured, .exited] = true
    case neg =>
      have heq : restore opts env st
          = ⟨.error (.msg "container is running or paused, cannot restore"), st, false⟩ := by
        unfold restore; rw [hcs, if_neg hpod, if_pos (by simp [hens])]
      rw [heq] at hr
      simp at hr
    case pos =>
    cases hip2 : (if opts.importPrevious ≠ "" then env.importPre else Except.ok ()) with
    | error e =>
      have heq : restore opts env st = ⟨.error e, st, false⟩ := by
        unfold restore; rw [hcs, if_neg hpod, if_neg (by simp [hens]), hip2]
      rw [heq] at hr
      simp at hr
    | ok u2 =>
    cases u2
    cases hic : (if opts.targetFile ≠ "" then env.importCk else Except.ok ()) with
    | error e =>
      have heq : restore opts env st = ⟨.error e, st, false⟩ := by
        unfold restore; rw [hcs, if_neg hpod, if_neg (by simp [hens]), hip2, hic]
      rw [heq] at hr
      simp at hr
    | ok u3 =>
    cases u3
    by_cases hinv : env.inventoryExists = true
    case neg =>
      have heq : restore opts env st
          = ⟨.error (.msg "a complete checkpoint for this container cannot be found, cannot restore"),
             st, false⟩ := by
        unfold restore
        rw [hcs, if_neg hpod, if_neg (by simp [hens]), hip2, hic, if_pos (by simp [hinv])]
      rw [heq] at hr
      simp at hr
    case pos =>
    cases hcr : env.createRestoreLog with
    | error e =>
      have heq : restore opts env st = ⟨.error e, st, false⟩ := by
        unfold restore
        rw [hcs, if_neg hpod, if_neg (by simp [hens]), hip2, hic,
          if_neg (by simp [hinv]), hcr]
      rw [heq] at hr
      simp at hr
    | ok u4 =>
    cases u4
    have heq := restore_eq_phase opts env st hcs hpod hens hip2 hic hinv hcr
    rw [heq] at hr ⊢
    exact restoreNetworkPhase_ok opts env _ r hr

/-- C3: restore fails without re-creating the process whenever the container
is not Configured or Exited or the dump engine's inventory marker is
missing; every successful restore ends Running with Restored=true and
Checkpointed=false. -/
theorem restore_state_machine (opts : RestoreOptions) (env : RestoreEnv)
    (st : RestoreState) :
    (¬(st.status = .configured ∨ st.status = .exited) →
      (∀ r, (restore opts env st).result ≠ .ok r)
      ∧ (restore opts env st).restorePerformed = false)
    ∧ (env.inventoryExists = false →
      (∀ r, (restore opts env st).result ≠ .ok r)
      ∧ (restore opts env st).restorePerformed = false)
    ∧ (∀ r, (restore opts env st).result = .ok r →
      (restore opts env st).state.status = .running
      ∧ (restore opts env st).state.restored = true
      ∧ (restore opts env st).state.checkpointed = false) :=
  ⟨fun hst => restore_invalid_state opts env st hst,
   fun hinv => restore_no_inventory opts env st hinv,
   fun r hr => restore_success opts env st r hr⟩

def rOptsW : RestoreOptions :=
  ⟨"", "", "", "", false, false, false, false, true, false⟩

def rEnvOkW : RestoreEnv :=
  { criuSupported := true
  , runtimeSupportsCheckpoint := true
  , runtimeSupportsPodRestore := true
  , importPre := .ok ()
  , importCk := .ok ()
  , inventoryExists := true
  , createRestoreLog := .ok ()
  , bundlePath := "/bundle"
  , checkpointDirPath := "/bundle/checkpoint"
  , readNetStatus := .ok []
  , containerNetworks := .ok []
  , prepareCtr := .ok ()
  , readSpecConfig := .ok ()
  , podSetup := .ok ()
  , makeCtrBindMounts := .ok ()
  , removeConmonFiles := .ok ()
  , saveSpec := .ok ()
  , volumesRestore := .ok ()
  , applyRootFsDiff := .ok ()
  , removeDeletedFiles := .ok ()
  , runtimeCreate := .ok 7
  , restoreStats := .ok ⟨0, 0, 0, 0, 0, 0⟩
  , save := .ok () }

theorem restore_state_machine_witness :
    (restore rOptsW rEnvOkW ⟨.configured, false, false, "", "", none⟩).state.status = .running
    ∧ (restore rOptsW rEnvOkW ⟨.configured, false, false, "", "", none⟩).state.restored = true
    ∧ (restore rOptsW rEnvOkW ⟨.configured, false, false, "", "", none⟩).state.checkpointed
        = false
    ∧ ((restore rOptsW rEnvOkW ⟨.running, false, false, "", "", none⟩).result
        = .ok ((none : Option CRIUStats), 7) → False) := by
  have h1 := (restore_state_machine rOptsW rEnvOkW
    ⟨.configured, false, false, "", "", none⟩).2.2 ((none : Option CRIUStats), 7) (by decide)
  have h2 := (restore_state_machine rOptsW rEnvOkW
    ⟨.running, false, false, "", "", none⟩).1 (by decide)
  exact ⟨h1.1, h1.2.1, h1.2.2, fun hc => h2.1 _ hc⟩

theorem restoreNetworkPhase_pno_name (opts : RestoreOptions) (env : RestoreEnv)
    (st : RestoreState) (hname : opts.name ≠ "") :
    (restoreNetworkPhase opts env st).state.perNetworkOpts = st.perNetworkOpts := by
  cases hrn : env.readNetStatus with
  | error e =>
    have heq : restoreNetworkPhase opts env st = restoreTail opts env st := by
      unfold restoreNetworkPhase; rw [hrn]
    rw [heq]
    exact restoreTail_pno opts env st
  | ok ns =>
    have heq : restoreNetworkPhase opts env st = restoreNetworkApply opts env st ns := by
      unfold restoreNetworkPhase; rw [hrn]
    have heq2 : restoreNetworkApply opts env st ns = restoreTail opts env st := by
      unfold restoreNetworkApply; rw [if_neg (by simp [hname])]
    rw [heq, heq2]
    exact restoreTail_pno opts env st

/-- C8: from a readable network-status snapshot and with the ignore flags
unset, the snapshot MAC/IPs are written into the per-network options iff no
new container name was requested: a new name leaves the options untouched
on every path, no new name (on a successful restore) replaces them with the
snapshot-derived options, whose per-network entry carries the snapshot's
interface name, MAC address and IP addresses. -/
theorem restore_mac_ip_name_condition (opts : RestoreOptions) (env : RestoreEnv)
    (st : RestoreState) (netStatus : NetStatus)
    (hread : env.readNetStatus = .ok netStatus)
    (hip : opts.ignoreStaticIP = false) (hmac : opts.ignoreStaticMAC = false) :
    (opts.name ≠ "" →
      (restore opts env st).state.perNetworkOpts = st.perNetworkOpts)
    ∧ (∀ networkOpts r, opts.name = "" → env.containerNetworks = .ok networkOpts →
        (restore opts env st).result = .ok r →
        (restore opts env st).state.perNetworkOpts
          = some (restoreNetworkOpts opts netStatus networkOpts))
    ∧ (∀ network pno block iname ifc rest,
        lookupAssoc netStatus network = some block →
        block.interfaces = (iname, ifc) :: rest →
        restorePerNetOpts opts netStatus network pno
          = ⟨iname, some ifc.macAddress, ifc.subnets⟩) := by
  refine ⟨?_, ?_, ?_⟩
  · intro hname
    cases hcs : checkpointRestoreSupported env.criuSupported env.runtimeSupportsCheckpoint with
    | error e =>
      have heq : restore opts env st = ⟨.error e, st, false⟩ := by
        unfold restore; rw [hcs]
      rw [heq]
    | ok u =>
    cases u
    by_cases hpod : opts.pod ≠ "" ∧ ¬env.runtimeSupportsPodRestore = true
    · have heq : restore opts env st
          = ⟨.error (.msg "runtime does not support pod restore"), st, false⟩ := by
        unfold restore; rw [hcs, if_pos hpod]
      rw [heq]
    · by_cases hens : ensureState st.status [.configured, .exited] = true
      case neg =>
        have heq : restore opts env st
            = ⟨.error (.msg "container is running or paused, cannot restore"), st, false⟩ := by
          unfold restore; rw [hcs, if_neg hpod, if_pos (by simp [hens])]
        rw [heq]
      case pos =>
      cases hip2 : (if opts.importPrevious ≠ "" then env.importPre else Except.ok ()) with
      | error e =>
        have heq : restore opts env st = ⟨.error e, st, false⟩ := by
          unfold restore; rw [hcs, if_neg hpod, if_neg (by simp [hens]), hip2]
        rw [heq]
      | ok u2 =>
      cases u2
      cases hic : (if opts.targetFile ≠ "" then env.importCk else Except.ok ()) with
      | error e =>
        have heq : restore opts env st = ⟨.error e, st, false⟩ := by
          unfold restore; rw [hcs, if_neg hpod, if_neg (by simp [hens]), hip2, hic]
        rw [heq]
      | ok u3 =>
      cases u3
      by_cases hinv : env.inventoryExists = true
      case neg =>
        have heq : restore opts env st
            = ⟨.error (.msg "a complete checkpoint for this container cannot be found, cannot restore"),
               st, false⟩ := by
          unfold restore
          rw [hcs, if_neg hpod, if_neg (by simp [hens]), hip2, hic, if_pos (by simp [hinv])]
        rw [heq]
      case pos =>
      cases hcr : env.createRestoreLog with
      | error e =>
        have heq : restore opts env st = ⟨.error e, st, false⟩ := by
          unfold restore
          rw [hcs, if_neg hpod, if_neg (by simp [hens]), hip2, hic,
            if_neg (by simp [hinv]), hcr]
        rw [heq]
      | ok u4 =>
      cases u4
      rw [restore_eq_phase opts env st hcs hpod hens hip2 hic hinv hcr]
      exact restoreNetworkPhase_pno_name opts env _ hname
  · intro networkOpts r hname hnets hr
    cases hcs : checkpointRestoreSupported env.criuSupported env.runtimeSupportsCheckpoint with
    | error e =>
      have heq : restore opts env st = ⟨.error e, st, false⟩ := by
        unfold restore; rw [hcs]
      rw [heq] at hr
      simp at hr
    | ok u =>
    cases u
    by_cases hpod : opts.pod ≠ "" ∧ ¬env.runtimeSupportsPodRestore = true
    · have heq : restore opts env st
          = ⟨.error (.msg "runtime does not support pod restore"), st, false⟩ := by
        unfold restore; rw [hcs, if_pos hpod]
      rw [heq] at hr
      simp at hr
    · by_cases hens : ensureState st.status [.configured, .exited] = true
      case neg =>
        have heq : restore opts env st
            = ⟨.error (.msg "container is running or paused, cannot restore"), st, false⟩ := by
          unfold restore; rw [hcs, if_neg hpod, if_pos (by simp [hens])]
        rw [heq] at hr
        simp at hr
      case pos =>
      cases hip2 : (if opts.importPrevious ≠ "" then env.importPre else Except.ok ()) with
      | error e =>
        have heq : restore opts env st = ⟨.error e, st, false⟩ := by
          unfold restore; rw [hcs, if_neg hpod, if_neg (by simp [hens]), hip2]
        rw [heq] at hr
        simp at hr
      | ok u2 =>
      cases u2
      cases hic : (if opts.targetFile ≠ "" then env.importCk else Except.ok ()) with
      | error e =>
        have heq : restore opts env st = ⟨.error e, st, false⟩ := by
          unfold restore; rw [hcs, if_neg hpod, if_neg (by simp [hens]), hip2, hic]
        rw [heq] at hr
        simp at hr
      | ok u3 =>
      cases u3
      by_cases hinv : env.inventoryExists = true
      case neg =>
        have heq : restore opts env st
            = ⟨.error (.msg "a complete checkpoint for this container cannot be found, cannot restore"),
               st, false⟩ := by
          unfold restore
          rw [hcs, if_neg hpod, if_neg (by simp [hens]), hip2, hic, if_pos (by simp [hinv])]
        rw [heq] at hr
        simp at hr
      case pos =>
      cases hcr : env.createRestoreLog with
      | error e =>
        have heq : restore opts env st = ⟨.error e, st, false⟩ := by
          unfold restore
          rw [hcs, if_neg hpod, if_neg (by simp [hens]), hip2, hic,
            if_neg (by simp [hinv]), hcr]
        rw [heq] at hr
        simp at hr
      | ok u4 =>
      cases u4
      rw [restore_eq_phase opts env st hcs hpod hens hip2 hic hinv hcr] at hr ⊢
      have heqp : restoreNetworkPhase opts env
          { st with restoreLog := joinPath env.bundlePath "restore.log"
                  , checkpointPath := env.checkpointDirPath }
          = restoreNetworkApply opts env
              { st with restoreLog := joinPath env.bundlePath "restore.log"
                      , checkpointPath := env.checkpointDirPath } netStatus := by
        unfold restoreNetworkPhase; rw [hread]
      rw [heqp] at hr ⊢
      have heqa : restoreNetworkApply opts env
          { st with restoreLog := joinPath env.bundlePath "restore.log"
                  , checkpointPath := env.checkpointDirPath } netStatus
          = restoreTail opts env
              { st with restoreLog := joinPath env.bundlePath "restore.log"
                      , checkpointPath := env.checkpointDirPath
                      , perNetworkOpts := some (restoreNetworkOpts opts netStatus networkOpts) } := by
        unfold restoreNetworkApply
        rw [if_pos (by simp [hname, hip]), hnets]
      rw [heqa]
      rw [restoreTail_pno]
  · intro network pno block iname ifc rest hlk hintf
    simp [restorePerNetOpts, hlk, hintf, hip]

def netStatusW : NetStatus :=
  [("net0", ⟨[("eth0", ⟨"aa:bb:cc:dd:ee:ff", ["10.0.0.2"]⟩)]⟩)]

def networkOptsW : List (String × PerNetworkOptions) := [("net0", ⟨"", none, []⟩)]

def rEnvNetW : RestoreEnv :=
  { rEnvOkW with readNetStatus := .ok netStatusW
               , containerNetworks := .ok networkOptsW }

def rOptsNameW : RestoreOptions :=
  ⟨"", "", "", "newname", false, false, false, false, true, false⟩

theorem restore_mac_ip_name_condition_witness :
    (restore rOptsNameW rEnvNetW ⟨.configured, false, false, "", "", none⟩).state.perNetworkOpts
      = none
    ∧ (restore rOptsW rEnvNetW ⟨.configured, false, false, "", "", none⟩).state.perNetworkOpts
      = some (restoreNetworkOpts rOptsW netStatusW networkOptsW)
    ∧ restorePerNetOpts rOptsW netStatusW "net0" ⟨"", none, []⟩
      = ⟨"eth0", some "aa:bb:cc:dd:ee:ff", ["10.0.0.2"]⟩ := by
  have h1 := restore_mac_ip_name_condition rOptsNameW rEnvNetW
    ⟨.configured, false, false, "", "", none⟩ netStatusW rfl rfl rfl
  have h2 := restore_mac_ip_name_condition rOptsW rEnvNetW
    ⟨.configured, false, false, "", "", none⟩ netStatusW rfl rfl rfl
  exact ⟨h1.1 (by decide),
    h2.2.1 networkOptsW ((none : Option CRIUStats), 7) rfl rfl (by decide),
    h2.2.2 "net0" ⟨"", none, []⟩ ⟨[("eth0", ⟨"aa:bb:cc:dd:ee:ff", ["10.0.0.2"]⟩)]⟩
      "eth0" ⟨"aa:bb:cc:dd:ee:ff", ["10.0.0.2"]⟩ [] (by decide) rfl⟩

end Podman
